import Mathlib

/-!
Daily progress and streak tracking (backend/storage.js)

A shallow embedding of the progress methods of `MongoStorage`
(`src/backend/storage.js`): `createUser`, `updateTaskCompletion`,
`resetDailyProgress` and `checkAndUpdateStreak`, together with the part of
Mongoose they rely on (documents loaded by `findById`, whose `save()` writes
back only the paths that were modified on that document); of the task producers
that report to them (`createGratitudeEntry`, `createJournalEntry`,
`deleteJournalEntry`, `createPomodoroSession` and the todo methods); of the
progress and pomodoro handlers of `src/backend/routes.js` with the order in which
they are registered; of `verifyToken` (`src/backend/auth.js`); and of the
frontend state updates around them (`progressContext.jsx`, the forced-break
storage of `PomodoroPage.jsx` and `BreakRedirect.jsx`).

Modelling conventions.

* A `Date` is its epoch value in milliseconds, an `Int`.
* The server's time zone is a fixed offset `tz` (milliseconds east of UTC;
  no daylight-saving changes), so `setHours(0, 0, 0, 0)` is the floor of the
  local time to a multiple of 24h. Where the length of a local day matters
  (the elapsed-days test of `checkAndUpdateStreak`), the method is also
  embedded over a `Zone` with one change of offset (`checkAndUpdateStreakIn`),
  which agrees with the fixed-offset embedding when the offset does not change.
* One call reads the clock once: the successive `new Date()` expressions
  inside one method call all evaluate to the parameter `now`.
* `progress` is a JavaScript number; `(completedCount / 4) * 100` is computed
  exactly for `completedCount` in `0..4`, and is embedded over `ℚ`.
* The `users` collection is a list of records; store operations do not fail,
  so the `catch` branches (which return `null`) are reached only through the
  explicit `return null` of a missing user.
-/

namespace Productivity

/-! ## Data model (UserSchema) -/

/-- The four task kinds, the keys of `completedTasks` in `UserSchema`. -/
inductive TaskType where
  | gratitude
  | pomodoro
  | todo
  | journal
  deriving DecidableEq, Repr

/-- The nested path `completedTasks` of `UserSchema`, in schema order. -/
structure CompletedTasks where
  gratitude : Bool
  pomodoro : Bool
  todo : Bool
  journal : Bool
  deriving DecidableEq, Repr

/-- A record of the `users` collection (`UserSchema`). -/
structure User where
  _id : Nat
  username : String
  email : String
  password : String
  streak : Nat
  lastActive : Int
  completedTasks : CompletedTasks
  progress : ℚ
  lastStreakUpdate : Option Int
  deriving DecidableEq, Repr

/-- The `users` collection. -/
abbrev Users := List User

/-- The literal `{ gratitude: false, pomodoro: false, todo: false, journal: false }`. -/
def CompletedTasks.allFalse : CompletedTasks :=
  { gratitude := false, pomodoro := false, todo := false, journal := false }

/-- Reading `completedTasks[taskType]`. -/
def CompletedTasks.get (c : CompletedTasks) : TaskType → Bool
  | .gratitude => c.gratitude
  | .pomodoro => c.pomodoro
  | .todo => c.todo
  | .journal => c.journal

/-- The assignment `completedTasks[taskType] = isCompleted`. -/
def CompletedTasks.set (c : CompletedTasks) (taskType : TaskType) (isCompleted : Bool) :
    CompletedTasks :=
  match taskType with
  | .gratitude => { c with gratitude := isCompleted }
  | .pomodoro => { c with pomodoro := isCompleted }
  | .todo => { c with todo := isCompleted }
  | .journal => { c with journal := isCompleted }

/-- The array `Object.values(user.completedTasks)`. -/
def CompletedTasks.values (c : CompletedTasks) : List Bool :=
  [c.gratitude, c.pomodoro, c.todo, c.journal]

/-! ## Calendar arithmetic -/

/-- Milliseconds in a day, `1000 * 60 * 60 * 24`. -/
def msPerDay : Int := 1000 * 60 * 60 * 24

/-- The value of `new Date(t).setHours(0, 0, 0, 0)`: the instant of local midnight
of the calendar day of `t`, for a server `tz` milliseconds east of UTC. -/
def setHours0 (tz t : Int) : Int := t - (t + tz) % msPerDay

/-! ## Mongoose documents -/

/-- The paths of a user document that have been marked modified since it was loaded. -/
structure Modified where
  streak : Bool := false
  lastActive : Bool := false
  gratitude : Bool := false
  pomodoro : Bool := false
  todo : Bool := false
  journal : Bool := false
  progress : Bool := false
  lastStreakUpdate : Bool := false
  deriving DecidableEq, Repr

/-- A hydrated Mongoose document: the in-memory values and the modified paths. -/
structure UserDoc where
  cur : User
  modified : Modified
  deriving DecidableEq, Repr

/-- The stored record with the given `_id`, if the collection has one. -/
def stored (db : Users) (userId : Nat) : Option User :=
  db.find? (fun u => u._id == userId)

/-- The query `UserModel.findById(userId)`: a fresh document with no modified path,
or `none` for `null`. -/
def findById (db : Users) (userId : Nat) : Option UserDoc :=
  (stored db userId).map (fun u => { cur := u, modified := {} })

/-- Assignment to `user.streak`; the path is marked when the value changes. -/
def UserDoc.setStreak (d : UserDoc) (v : Nat) : UserDoc :=
  { cur := { d.cur with streak := v },
    modified := { d.modified with streak := d.modified.streak || v != d.cur.streak } }

/-- Assignment to `user.lastActive`. -/
def UserDoc.setLastActive (d : UserDoc) (v : Int) : UserDoc :=
  { cur := { d.cur with lastActive := v },
    modified := { d.modified with lastActive := d.modified.lastActive || v != d.cur.lastActive } }

/-- Assignment to `user.progress`. -/
def UserDoc.setProgress (d : UserDoc) (v : ℚ) : UserDoc :=
  { cur := { d.cur with progress := v },
    modified := { d.modified with progress := d.modified.progress || v != d.cur.progress } }

/-- Assignment to `user.lastStreakUpdate`. -/
def UserDoc.setLastStreakUpdate (d : UserDoc) (v : Option Int) : UserDoc :=
  { cur := { d.cur with lastStreakUpdate := v },
    modified := { d.modified with
      lastStreakUpdate := d.modified.lastStreakUpdate || v != d.cur.lastStreakUpdate } }

/-- Assignment to `user.completedTasks[taskType]`. -/
def UserDoc.setTask (d : UserDoc) (taskType : TaskType) (v : Bool) : UserDoc :=
  { cur := { d.cur with completedTasks := d.cur.completedTasks.set taskType v },
    modified :=
      match taskType with
      | .gratitude =>
        { d.modified with gratitude := d.modified.gratitude || v != d.cur.completedTasks.gratitude }
      | .pomodoro =>
        { d.modified with pomodoro := d.modified.pomodoro || v != d.cur.completedTasks.pomodoro }
      | .todo =>
        { d.modified with todo := d.modified.todo || v != d.cur.completedTasks.todo }
      | .journal =>
        { d.modified with journal := d.modified.journal || v != d.cur.completedTasks.journal } }

/-- Assignment of an object to the nested path `user.completedTasks`: each key is set. -/
def UserDoc.setCompletedTasks (d : UserDoc) (c : CompletedTasks) : UserDoc :=
  (((d.setTask .gratitude c.gratitude).setTask .pomodoro c.pomodoro).setTask
    .todo c.todo).setTask .journal c.journal

/-- The update sent by `save()`: the modified paths of `d` are written over the
stored record, every other path of the stored record is kept. -/
def applyModified (d : UserDoc) (stored : User) : User :=
  { stored with
    streak := if d.modified.streak then d.cur.streak else stored.streak
    lastActive := if d.modified.lastActive then d.cur.lastActive else stored.lastActive
    completedTasks :=
      { gratitude :=
          if d.modified.gratitude then d.cur.completedTasks.gratitude
          else stored.completedTasks.gratitude
        pomodoro :=
          if d.modified.pomodoro then d.cur.completedTasks.pomodoro
          else stored.completedTasks.pomodoro
        todo :=
          if d.modified.todo then d.cur.completedTasks.todo else stored.completedTasks.todo
        journal :=
          if d.modified.journal then d.cur.completedTasks.journal
          else stored.completedTasks.journal }
    progress := if d.modified.progress then d.cur.progress else stored.progress
    lastStreakUpdate :=
      if d.modified.lastStreakUpdate then d.cur.lastStreakUpdate else stored.lastStreakUpdate }

/-- The call `user.save()` on a loaded document. -/
def save (db : Users) (d : UserDoc) : Users :=
  db.map (fun u => if u._id == d.cur._id then applyModified d u else u)

/-! ## MongoStorage: progress tracking methods -/

/-- The object returned by `updateTaskCompletion` and `checkAndUpdateStreak`. -/
structure TaskResult where
  completedTasks : CompletedTasks
  progress : ℚ
  streak : Nat
  allTasksCompleted : Bool
  deriving DecidableEq, Repr

/-- The object returned by `resetDailyProgress`. -/
structure ResetResult where
  completedTasks : CompletedTasks
  progress : ℚ
  streak : Nat
  deriving DecidableEq, Repr

/-- The method `MongoStorage.createUser`: a new record with zero progress. The
generated `_id` and the bcrypt hash are inputs; the unique indexes on `username`
and `email` make the save throw (`none`). -/
def createUser (now : Int) (db : Users) (newId : Nat) (username email hashedPassword : String) :
    Users × Option User :=
  if db.any (fun u => u._id == newId || u.username == username || u.email == email) then
    (db, none)
  else
    let newUser : User :=
      { _id := newId
        username := username
        email := email
        password := hashedPassword
        streak := 0
        lastActive := now
        completedTasks :=
          { gratitude := false, pomodoro := false, todo := false, journal := false }
        progress := 0
        lastStreakUpdate := none }
    (db ++ [newUser], some newUser)

/-- The method `MongoStorage.updateTaskCompletion`. -/
def updateTaskCompletion (tz now : Int) (db : Users) (userId : Nat) (taskType : TaskType)
    (isCompleted : Bool) : Users × Option TaskResult :=
  match findById db userId with
  | none => (db, none)
  | some user =>
    -- Update the specific task
    let user := user.setTask taskType isCompleted
    -- Calculate progress (25% per task)
    let completedCount := (user.cur.completedTasks.values.filter id).length
    let user := user.setProgress (((completedCount : ℚ) / 4) * 100)
    -- Update last active time
    let user := user.setLastActive now
    -- Check if all tasks are completed to update streak
    let allCompleted := user.cur.completedTasks.values.all id
    let user :=
      if allCompleted then
        let today := setHours0 tz now
        let lastUpdate := user.cur.lastStreakUpdate.map (setHours0 tz)
        if lastUpdate ≠ some today then
          (user.setStreak (user.cur.streak + 1)).setLastStreakUpdate (some now)
        else user
      else user
    (save db user,
      some
        { completedTasks := user.cur.completedTasks
          progress := user.cur.progress
          streak := user.cur.streak
          allTasksCompleted := allCompleted })

/-- The method `MongoStorage.resetDailyProgress`. -/
def resetDailyProgress (db : Users) (userId : Nat) : Users × Option ResetResult :=
  match findById db userId with
  | none => (db, none)
  | some user =>
    let user := user.setCompletedTasks
      { gratitude := false, pomodoro := false, todo := false, journal := false }
    let user := user.setProgress 0
    (save db user,
      some
        { completedTasks := user.cur.completedTasks
          progress := user.cur.progress
          streak := user.cur.streak })

/-- The method `MongoStorage.checkAndUpdateStreak`. The document `user` is loaded
before `resetDailyProgress` runs on a document of its own. -/
def checkAndUpdateStreak (tz now : Int) (db : Users) (userId : Nat) :
    Users × Option TaskResult :=
  match findById db userId with
  | none => (db, none)
  | some user =>
    let lastActive := user.cur.lastActive
    let today := setHours0 tz now
    let lastActiveDay := setHours0 tz lastActive
    let yesterday := setHours0 tz (today - msPerDay)
    -- Calculate days since last activity
    let daysSinceLastActive := (now - lastActive) / msPerDay
    let finish (db : Users) (user : UserDoc) : Users × Option TaskResult :=
      -- Update last active time
      let user := user.setLastActive now
      (save db user,
        some
          { streak := user.cur.streak
            progress := user.cur.progress
            completedTasks := user.cur.completedTasks
            allTasksCompleted := user.cur.completedTasks.values.all id })
    -- Check if we need to reset daily progress (it's a new day)
    if lastActiveDay < today then
      let db := (resetDailyProgress db userId).1
      let allTasksCompletedYesterday :=
        match user.cur.lastStreakUpdate with
        | none => false
        | some t => decide (setHours0 tz t = yesterday)
      if daysSinceLastActive > 1 || !allTasksCompletedYesterday then
        let user := (user.setStreak 0).setLastStreakUpdate none
        (save db user,
          some
            { streak := 0
              progress := 0
              completedTasks :=
                { gratitude := false, pomodoro := false, todo := false, journal := false }
              allTasksCompleted := false })
      else finish db user
    else finish db user

/-! ## Task producers (storage.js): gratitude, journal, pomodoro and todo collections -/

/-- A record of `GratitudeEntrySchema`. -/
structure GratitudeEntry where
  _id : Nat
  userId : Nat
  entries : List String
  date : Int
  deriving DecidableEq, Repr

/-- A record of `JournalEntrySchema`. -/
structure JournalEntry where
  _id : Nat
  userId : Nat
  title : String
  content : String
  date : Int
  deriving DecidableEq, Repr

/-- The enum of `PomodoroSessionSchema.type`: `'beginner'`, `'intermediate'`, `'flow_state'`. -/
inductive PomodoroType where
  | beginner
  | intermediate
  | flow_state
  deriving DecidableEq, Repr

/-- A record of `PomodoroSessionSchema`. -/
structure PomodoroSession where
  _id : Nat
  userId : Nat
  type : PomodoroType
  completedCycles : ℚ
  isBreak : Bool
  date : Int
  deriving DecidableEq, Repr

/-- A record of `TodoSchema`. -/
structure Todo where
  _id : Nat
  userId : Nat
  text : String
  completed : Bool
  date : Int
  deriving DecidableEq, Repr

/-- The collections behind `MongoStorage`. -/
structure Store where
  users : Users
  gratitudeEntries : List GratitudeEntry
  journalEntries : List JournalEntry
  pomodoroSessions : List PomodoroSession
  todos : List Todo
  deriving DecidableEq, Repr

/-- The method `MongoStorage.createGratitudeEntry`. The generated `_id` is an input. The
value returned by the inner `updateTaskCompletion` is dropped, as in the source; the
result is the saved entry (`none` stands for a thrown error, which this method never
raises while the entry itself can be saved). -/
def createGratitudeEntry (tz now : Int) (s : Store) (newId : Nat) (userId : Nat)
    (entries : List String) : Store × Option GratitudeEntry :=
  let savedEntry : GratitudeEntry :=
    { _id := newId, userId := userId, entries := entries, date := now }
  let s := { s with gratitudeEntries := s.gratitudeEntries ++ [savedEntry] }
  -- Mark gratitude task as completed
  let s := { s with users := (updateTaskCompletion tz now s.users userId .gratitude true).1 }
  (s, some savedEntry)

/-- The method `MongoStorage.createJournalEntry`. `title` and `content` are `required`
strings: the save of an entry with an empty one throws (`none`). -/
def createJournalEntry (tz now : Int) (s : Store) (newId : Nat) (userId : Nat)
    (title content : String) : Store × Option JournalEntry :=
  if title = "" ∨ content = "" then (s, none)
  else
    let savedEntry : JournalEntry :=
      { _id := newId, userId := userId, title := title, content := content, date := now }
    let s := { s with journalEntries := s.journalEntries ++ [savedEntry] }
    -- Mark journal task as completed
    let s := { s with users := (updateTaskCompletion tz now s.users userId .journal true).1 }
    (s, some savedEntry)

/-- The method `MongoStorage.createPomodoroSession`. -/
def createPomodoroSession (tz now : Int) (s : Store) (newId : Nat) (userId : Nat)
    (type : PomodoroType) (completedCycles : ℚ) (isBreak : Bool) :
    Store × Option PomodoroSession :=
  let savedSession : PomodoroSession :=
    { _id := newId, userId := userId, type := type, completedCycles := completedCycles,
      isBreak := isBreak, date := now }
  let s := { s with pomodoroSessions := s.pomodoroSessions ++ [savedSession] }
  -- Mark pomodoro task as completed
  let s := { s with users := (updateTaskCompletion tz now s.users userId .pomodoro true).1 }
  (s, some savedSession)

/-- The query `TodoModel.find({ userId })`. -/
def todoItemsOf (s : Store) (userId : Nat) : List Todo :=
  s.todos.filter (fun item => item.userId == userId)

/-- The method `MongoStorage.checkTodoCompletion`. -/
def checkTodoCompletion (tz now : Int) (s : Store) (userId : Nat) : Store × Bool :=
  let items := todoItemsOf s userId
  -- If no items, todo task is not completed
  if items.length = 0 then
    ({ s with users := (updateTaskCompletion tz now s.users userId .todo false).1 }, false)
  else
    -- Check if all items are completed
    let allCompleted := items.all (fun item => item.completed)
    ({ s with users := (updateTaskCompletion tz now s.users userId .todo allCompleted).1 },
      allCompleted)

/-- The method `MongoStorage.createTodoItem`. `text` is a `required` string: the save of
an item with empty text throws (`none`). -/
def createTodoItem (tz now : Int) (s : Store) (newId : Nat) (userId : Nat) (text : String) :
    Store × Option Todo :=
  if text = "" then (s, none)
  else
    let savedItem : Todo :=
      { _id := newId, userId := userId, text := text, completed := false, date := now }
    let s := { s with todos := s.todos ++ [savedItem] }
    -- Check if all todos are completed
    ((checkTodoCompletion tz now s userId).1, some savedItem)

/-- The update `TodoModel.findOneAndUpdate({ _id: itemId, userId }, updateData, { new: true })`:
the first matching item is changed and returned. -/
def findOneAndUpdateTodo (itemId userId : Nat) (text : Option String) (completed : Option Bool) :
    List Todo → List Todo × Option Todo
  | [] => ([], none)
  | item :: rest =>
    if item._id == itemId && item.userId == userId then
      let updatedItem : Todo :=
        { item with
          text := text.getD item.text
          completed := completed.getD item.completed }
      (updatedItem :: rest, some updatedItem)
    else
      let r := findOneAndUpdateTodo itemId userId text completed rest
      (item :: r.1, r.2)

/-- The method `MongoStorage.updateTodoItem`; an `undefined` field is `none`. -/
def updateTodoItem (tz now : Int) (s : Store) (userId itemId : Nat) (text : Option String)
    (completed : Option Bool) : Store × Option Todo :=
  let r := findOneAndUpdateTodo itemId userId text completed s.todos
  let s := { s with todos := r.1 }
  -- Check if all todos are completed
  ((checkTodoCompletion tz now s userId).1, r.2)

/-- The deletion `TodoModel.findOneAndDelete({ _id: itemId, userId })`: the first matching
item is removed. -/
def findOneAndDeleteTodo (itemId userId : Nat) : List Todo → List Todo
  | [] => []
  | item :: rest =>
    if item._id == itemId && item.userId == userId then rest
    else item :: findOneAndDeleteTodo itemId userId rest

/-- The method `MongoStorage.deleteTodoItem`. -/
def deleteTodoItem (tz now : Int) (s : Store) (userId itemId : Nat) : Store :=
  let s := { s with todos := findOneAndDeleteTodo itemId userId s.todos }
  -- Check if all todos are completed
  (checkTodoCompletion tz now s userId).1

/-! ## Progress routes (routes.js) -/

/-- The body of a JSON response of the progress routes. -/
inductive Body where
  | error (message : String)
  | progress (data : TaskResult)
  | reset (data : ResetResult)
  deriving DecidableEq, Repr

/-- An HTTP response: status code and JSON body. -/
structure Response where
  status : Nat
  body : Body
  deriving DecidableEq, Repr

/-- The method `MongoStorage.getUser`: `UserModel.findById(id).lean()`. -/
def getUser (db : Users) (id : Nat) : Option User :=
  stored db id

/-- The handler of `GET /api/progress`, for an authenticated request of `userId`. When
`progressData` is `null`, reading `progressData.streak` throws and the `catch` answers 500. -/
def getProgress (tz now : Int) (db : Users) (userId : Nat) : Users × Response :=
  match getUser db userId with
  | none => (db, { status := 404, body := .error "User not found" })
  | some _ =>
    -- Check and update streak if needed
    let r := checkAndUpdateStreak tz now db userId
    match r.2 with
    | none => (r.1, { status := 500, body := .error "Failed to get progress" })
    | some progressData =>
      (r.1,
        { status := 200
          body := .progress
            { streak := progressData.streak
              progress := progressData.progress
              completedTasks := progressData.completedTasks
              allTasksCompleted := progressData.allTasksCompleted || false } })

/-- The task kind named by a URL parameter, if it is one of the four. -/
def TaskType.ofString? (taskType : String) : Option TaskType :=
  if taskType = "gratitude" then some .gratitude
  else if taskType = "pomodoro" then some .pomodoro
  else if taskType = "todo" then some .todo
  else if taskType = "journal" then some .journal
  else none

/-- The handler of `POST /api/progress/:taskType` with body `{ completed }`, for an
authenticated request of `userId`. After the `includes` test the parameter names one of the
four kinds, so the `none` case of the conversion is never reached. -/
def postProgressTaskType (tz now : Int) (db : Users) (userId : Nat) (taskType : String)
    (completed : Bool) : Users × Response :=
  if ¬ ["gratitude", "pomodoro", "todo", "journal"].contains taskType then
    (db, { status := 400, body := .error "Invalid task type" })
  else
    match TaskType.ofString? taskType with
    | none => (db, { status := 500, body := .error "Failed to update task completion" })
    | some kind =>
      let r := updateTaskCompletion tz now db userId kind completed
      match r.2 with
      | none => (r.1, { status := 500, body := .error "Failed to update task completion" })
      | some result => (r.1, { status := 200, body := .progress result })

/-! ## Reachable records -/

/-- A call of one of the three progress methods of `MongoStorage`. -/
inductive ProgressOp where
  | updateTask (now : Int) (userId : Nat) (taskType : TaskType) (isCompleted : Bool)
  | resetDaily (userId : Nat)
  | checkStreak (now : Int) (userId : Nat)
  deriving DecidableEq, Repr

/-- The collection after one call. -/
def ProgressOp.apply (tz : Int) (db : Users) : ProgressOp → Users
  | .updateTask now userId taskType isCompleted =>
    (updateTaskCompletion tz now db userId taskType isCompleted).1
  | .resetDaily userId => (resetDailyProgress db userId).1
  | .checkStreak now userId => (checkAndUpdateStreak tz now db userId).1

/-- The collection after a sequence of calls, made one after the other. -/
def runOps (tz : Int) (db : Users) (ops : List ProgressOp) : Users :=
  ops.foldl (ProgressOp.apply tz) db

/-! ## Further producers and routes -/

/-- The deletion `JournalEntryModel.findOneAndDelete({ _id: entryId, userId })`: the first
matching entry is removed. -/
def findOneAndDeleteJournal (entryId userId : Nat) : List JournalEntry → List JournalEntry
  | [] => []
  | entry :: rest =>
    if entry._id == entryId && entry.userId == userId then rest
    else entry :: findOneAndDeleteJournal entryId userId rest

/-- The method `MongoStorage.deleteJournalEntry`. -/
def deleteJournalEntry (tz now : Int) (s : Store) (userId entryId : Nat) : Store :=
  let s := { s with journalEntries := findOneAndDeleteJournal entryId userId s.journalEntries }
  -- Check if there are any remaining entries
  let remainingEntries : Nat :=
    (s.journalEntries.filter (fun entry => entry.userId == userId)).length
  -- If no entries left, mark journal task as incomplete
  if remainingEntries = 0 then
    { s with users := (updateTaskCompletion tz now s.users userId .journal false).1 }
  else s

/-- The body of a JSON response of `POST /api/pomodoro`. -/
inductive PomodoroBody where
  | error (message : String)
  | session (saved : PomodoroSession)
  deriving DecidableEq, Repr

/-- An HTTP response of `POST /api/pomodoro`. -/
structure PomodoroResponse where
  status : Nat
  body : PomodoroBody
  deriving DecidableEq, Repr

/-- The session type named by a request body, if it is one of the three. -/
def PomodoroType.ofString? (type : String) : Option PomodoroType :=
  if type = "beginner" then some .beginner
  else if type = "intermediate" then some .intermediate
  else if type = "flow_state" then some .flow_state
  else none

/-- The handler of `POST /api/pomodoro` with body `{ type, completedCycles, isBreak }`, for an
authenticated request of `userId`. A `completedCycles` that is not a number is `none`;
`isBreak` is the body value after `!!`. -/
def postPomodoro (tz now : Int) (s : Store) (newId : Nat) (userId : Nat) (type : String)
    (completedCycles : Option ℚ) (isBreak : Bool) : Store × PomodoroResponse :=
  match PomodoroType.ofString? type with
  | none => (s, { status := 400, body := .error "Invalid pomodoro type" })
  | some kind =>
    match completedCycles with
    | none => (s, { status := 400, body := .error "Invalid completedCycles" })
    | some cycles =>
      if cycles < 0 then (s, { status := 400, body := .error "Invalid completedCycles" })
      else
        let r := createPomodoroSession tz now s newId userId kind cycles isBreak
        match r.2 with
        | none => (r.1, { status := 500, body := .error "Failed to create pomodoro session" })
        | some result => (r.1, { status := 201, body := .session result })

/-- The handler of `POST /api/progress/reset`, for an authenticated request of `userId`. -/
def postProgressReset (db : Users) (userId : Nat) : Users × Response :=
  let r := resetDailyProgress db userId
  match r.2 with
  | none => (r.1, { status := 500, body := .error "Failed to reset daily progress" })
  | some result => (r.1, { status := 200, body := .reset result })

/-- A segment of an Express route path: a literal, or a named parameter `:name`. -/
inductive Segment where
  | lit (text : String)
  | param (name : String)
  deriving DecidableEq, Repr

/-- Matching of a request path, split at `/`, against a route path: a literal matches
itself, a parameter matches any non-empty segment; the values of the parameters are
returned in order. -/
def matchRoute : List Segment → List String → Option (List String)
  | [], [] => some []
  | .lit text :: route, segment :: path =>
    if segment = text then matchRoute route path else none
  | .param _ :: route, segment :: path =>
    if segment = "" then none else (matchRoute route path).map (fun ps => segment :: ps)
  | _, _ => none

/-- The two `POST` routes under `/api/progress`. -/
inductive ProgressRoute where
  | taskType
  | reset
  deriving DecidableEq, Repr

/-- The `POST` routes under `/api/progress`, in the order in which `routes.js` registers
them on the router: `'/api/progress/:taskType'` first, `'/api/progress/reset'` second. -/
def postProgressRoutes : List (ProgressRoute × List Segment) :=
  [(.taskType, [.lit "api", .lit "progress", .param "taskType"]),
   (.reset, [.lit "api", .lit "progress", .lit "reset"])]

/-- Express dispatch of an authenticated `POST` whose path is under `/api/progress`: the
first registered route that matches handles the request; both handlers answer without
calling `next()`. No match falls through to the 404 of Express. -/
def dispatchPostProgress (tz now : Int) (db : Users) (userId : Nat) (path : List String)
    (completed : Bool) : Users × Response :=
  match postProgressRoutes.findSome?
      (fun r => (matchRoute r.2 path).map (fun ps => (r.1, ps))) with
  | some (ProgressRoute.taskType, ps) => postProgressTaskType tz now db userId (ps.headD "") completed
  | some (ProgressRoute.reset, _) => postProgressReset db userId
  | none => (db, { status := 404, body := .error "Not Found" })

/-- The local `daysSinceLastActive` of `checkAndUpdateStreak`:
`Math.floor((now - lastActive) / (1000 * 60 * 60 * 24))`. -/
def daysSinceLastActive (now lastActive : Int) : Int :=
  (now - lastActive) / msPerDay

/-- The number of whole calendar days separating the calendar day of `a` from the calendar
day of `b`. -/
def calendarDaysBetween (tz a b : Int) : Int :=
  (setHours0 tz b - setHours0 tz a) / msPerDay

/-! ## Authentication middleware (auth.js) -/

/-- The part of an HTTP request that `verifyToken` reads. -/
structure Request where
  originalUrl : String
  authorization : Option String
  deriving DecidableEq, Repr

/-- The body of a JSON response of the auth routes. -/
inductive AuthBody where
  | error (message : String)
  | user (id : Nat) (username email : String)
  deriving DecidableEq, Repr

/-- An HTTP response of the auth routes. -/
structure AuthResponse where
  status : Nat
  body : AuthBody
  deriving DecidableEq, Repr

/-- The middleware `verifyToken`. `jwtVerify` stands for `jwt.verify(token, JWT_SECRET, ...)`:
the decoded user id, or `none` for a verification error. The result is either the response
sent by the middleware, or the `req.userId` with which `next()` is called (`none` when it was
not set). -/
def verifyToken (jwtVerify : String → Option Nat) (req : Request) :
    Except AuthResponse (Option Nat) :=
  -- Skip token verification for auth routes
  if "/api/auth/".toList.isPrefixOf req.originalUrl.toList then .ok none
  else
    match req.authorization with
    | none => .error { status := 401, body := .error "No token provided" }
    | some authHeader =>
      if authHeader = "" then .error { status := 401, body := .error "No token provided" }
      else
        match (authHeader.splitOn " ").get? 1 with
        | none => .error { status := 401, body := .error "No token provided" }
        | some token =>
          if token = "" then .error { status := 401, body := .error "No token provided" }
          else
            match jwtVerify token with
            | none => .error { status := 401, body := .error "Invalid token" }
            | some id => .ok (some id)

/-- The route `GET /api/auth/user`: `verifyToken`, then the handler. With `req.userId`
undefined, `findById(undefined)` finds no user. -/
def getAuthUser (jwtVerify : String → Option Nat) (db : Users) (req : Request) : AuthResponse :=
  match verifyToken jwtVerify req with
  | .error response => response
  | .ok userId =>
    match userId.bind (getUser db) with
    | none => { status := 404, body := .error "User not found" }
    | some user => { status := 200, body := .user user._id user.username user.email }

/-! ## Clients and proof devices -/

/-- One call `updateTaskCompletion(userId, taskType, isCompleted)` made at time `now`. -/
structure Call where
  now : Int
  taskType : TaskType
  isCompleted : Bool
  deriving DecidableEq, Repr

/-- A client issuing a finite sequence of `updateTaskCompletion` calls for one user,
one after the other; returns the final collection and the value returned by each call. -/
def runCalls (tz : Int) (db : Users) (userId : Nat) : List Call → Users × List (Option TaskResult)
  | [] => (db, [])
  | c :: cs =>
    let step := updateTaskCompletion tz c.now db userId c.taskType c.isCompleted
    let rest := runCalls tz step.1 userId cs
    (rest.1, step.2 :: rest.2)

/-- Whether a returned value reports `allTasksCompleted: true`. -/
def reportsAllCompleted : Option TaskResult → Bool
  | none => false
  | some r => r.allTasksCompleted

/-- The guard of the streak award in `updateTaskCompletion`, read on the record as it
is stored before the call: `allCompleted && lastUpdate !== today`. -/
def awards (tz now : Int) (u : User) (taskType : TaskType) (isCompleted : Bool) : Bool :=
  (u.completedTasks.set taskType isCompleted).values.all id &&
    decide (u.lastStreakUpdate.map (setHours0 tz) ≠ some (setHours0 tz now))

/-- A document agrees with a stored record on every path it has not marked modified. -/
def InSync (d : UserDoc) (u : User) : Prop :=
  d.cur._id = u._id ∧ d.cur.username = u.username ∧ d.cur.email = u.email ∧
  d.cur.password = u.password ∧
  (d.modified.streak = false → d.cur.streak = u.streak) ∧
  (d.modified.lastActive = false → d.cur.lastActive = u.lastActive) ∧
  (d.modified.gratitude = false → d.cur.completedTasks.gratitude = u.completedTasks.gratitude) ∧
  (d.modified.pomodoro = false → d.cur.completedTasks.pomodoro = u.completedTasks.pomodoro) ∧
  (d.modified.todo = false → d.cur.completedTasks.todo = u.completedTasks.todo) ∧
  (d.modified.journal = false → d.cur.completedTasks.journal = u.completedTasks.journal) ∧
  (d.modified.progress = false → d.cur.progress = u.progress) ∧
  (d.modified.lastStreakUpdate = false → d.cur.lastStreakUpdate = u.lastStreakUpdate)

/-! ## Overlapping calls -/

/-- The synchronous part of `updateTaskCompletion`, between the `await` of `findById` and
the `await` of `save`: the changes made to the loaded document, and the value that will be
returned. -/
def updateTaskCompletionDoc (tz now : Int) (user : UserDoc) (taskType : TaskType)
    (isCompleted : Bool) : UserDoc × TaskResult :=
  -- Update the specific task
  let user := user.setTask taskType isCompleted
  -- Calculate progress (25% per task)
  let completedCount := (user.cur.completedTasks.values.filter id).length
  let user := user.setProgress (((completedCount : ℚ) / 4) * 100)
  -- Update last active time
  let user := user.setLastActive now
  -- Check if all tasks are completed to update streak
  let allCompleted := user.cur.completedTasks.values.all id
  let user :=
    if allCompleted then
      let today := setHours0 tz now
      let lastUpdate := user.cur.lastStreakUpdate.map (setHours0 tz)
      if lastUpdate ≠ some today then
        (user.setStreak (user.cur.streak + 1)).setLastStreakUpdate (some now)
      else user
    else user
  (user,
    { completedTasks := user.cur.completedTasks
      progress := user.cur.progress
      streak := user.cur.streak
      allTasksCompleted := allCompleted })

/-- Two calls of `updateTaskCompletion` for one user that overlap: each awaits `findById`
before either reaches `save`, so both work on a document loaded from the same stored
record; the first call then saves, and the second saves after it. Returns the final
collection and the two returned values. -/
def overlappedUpdates (tz : Int) (db : Users) (userId : Nat) (first second : Call) :
    Users × Option TaskResult × Option TaskResult :=
  match findById db userId, findById db userId with
  | some userA, some userB =>
    let a := updateTaskCompletionDoc tz first.now userA first.taskType first.isCompleted
    let b := updateTaskCompletionDoc tz second.now userB second.taskType second.isCompleted
    (save (save db a.1) b.1, some a.2, some b.2)
  | _, _ => (db, none, none)

/-- Whether a document has marked the flag of a task kind modified. -/
def Modified.task (m : Modified) : TaskType → Bool
  | .gratitude => m.gratitude
  | .pomodoro => m.pomodoro
  | .todo => m.todo
  | .journal => m.journal

/-! ## Progress context (frontend/src/contexts/progressContext.jsx) -/

/-- The React state `todayProgress`: the four flags, and the `streak` property that
`updateProgressState` and the updaters add to the object (absent in the initial state). -/
structure TodayProgress where
  pomodoro : Bool
  journal : Bool
  gratitude : Bool
  todo : Bool
  streak : Option Nat
  deriving DecidableEq, Repr

/-- The copy `{ ...prev, [taskKey]: completed }`. -/
def TodayProgress.set (p : TodayProgress) (taskKey : TaskType) (completed : Bool) :
    TodayProgress :=
  match taskKey with
  | .pomodoro => { p with pomodoro := completed }
  | .journal => { p with journal := completed }
  | .gratitude => { p with gratitude := completed }
  | .todo => { p with todo := completed }

/-- The test `newProgress.pomodoro && newProgress.journal && newProgress.gratitude &&
newProgress.todo`. -/
def TodayProgress.allCompleted (p : TodayProgress) : Bool :=
  p.pomodoro && p.journal && p.gratitude && p.todo

/-- The parsed content of the localStorage item `progress_data`, as far as the progress
context reads and writes it: the flags under `completedTasks`, under `today`, or spread at
the top level, the `streak` and the `lastCompletedDate`. -/
structure ProgressData where
  completedTasks : Option CompletedTasks
  today : Option CompletedTasks
  flags : Option CompletedTasks
  streak : Option Nat
  lastCompletedDate : Option Int
  deriving DecidableEq, Repr

/-- The state held by `ProgressProvider`: its React state and the localStorage items
`progress_data`, `progress_last_updated` and `last_completed_date`. -/
structure ProgressContext where
  streak : Nat
  todayProgress : TodayProgress
  allTasksCompleted : Bool
  lastCompletedDate : Option Int
  progressData : Option ProgressData
  progressLastUpdated : Option Int
  storedLastCompletedDate : Option Int
  deriving DecidableEq, Repr

/-- The optimistic update of `updateTaskCompletionMutation.mutationFn`: the updater passed
to `setTodayProgress`, with the `setAllTasksCompleted`, `setStreak` and `progress_data`
writes it performs. -/
def optimisticUpdate (ctx : ProgressContext) (taskKey : TaskType) (completed : Bool) :
    ProgressContext :=
  let prev := ctx.todayProgress
  let newProgress := prev.set taskKey completed
  -- Check if all tasks are now completed
  let allCompleted := newProgress.allCompleted
  -- If all tasks are completed, update streak immediately for better UX
  let currentStreak := prev.streak.getD 0
  let newStreak := currentStreak + 1
  let newProgress :=
    if allCompleted then { newProgress with streak := some newStreak } else newProgress
  -- Update local storage cache immediately for faster perceived performance
  let progressData :=
    match ctx.progressData with
    | none => none
    | some data =>
      match data.completedTasks with
      | some tasks =>
        some { data with
          completedTasks := some (tasks.set taskKey completed)
          streak := if allCompleted then newProgress.streak else data.streak }
      | none =>
        match data.today with
        | some tasks =>
          some { data with
            today := some (tasks.set taskKey completed)
            streak := if allCompleted then newProgress.streak else data.streak }
        | none => some data
  { ctx with
    streak := if allCompleted then newStreak else ctx.streak
    todayProgress := newProgress
    allTasksCompleted := allCompleted
    progressData := progressData }

/-- The helper `isToday(dateString)`: an absent string is not today; otherwise date, month
and year of the two local dates agree, that is, they are on one calendar day. -/
def isToday (tz now : Int) (dateString : Option Int) : Bool :=
  match dateString with
  | none => false
  | some date => setHours0 tz date == setHours0 tz now

/-- The fallback of `updateTaskCompletion` for a mutation that returned no data: the updater
passed to `setTodayProgress` in its `onSuccess`, with the state and localStorage writes it
performs. -/
def fallbackUpdate (tz now : Int) (ctx : ProgressContext) (taskKey : TaskType)
    (completed : Bool) : ProgressContext :=
  let prev := ctx.todayProgress
  -- Create a new progress object with the updated task
  let newProgress := prev.set taskKey completed
  -- Check if all tasks are now completed
  let allComplete := newProgress.allCompleted
  let ctx := { ctx with allTasksCompleted := allComplete }
  -- If all tasks are completed, update the streak
  if allComplete then
    -- Store the completion date
    let ctx := { ctx with lastCompletedDate := some now, storedLastCompletedDate := some now }
    -- Check if it wasn't already completed today to avoid double incrementing the streak
    let lastCompleteStr := ctx.storedLastCompletedDate
    let alreadyCompletedToday := isToday tz now lastCompleteStr
    if !alreadyCompletedToday then
      let currentStreak := prev.streak.getD 0
      let newStreak := currentStreak + 1
      -- Update streak in state and progress
      let newProgress := { newProgress with streak := some newStreak }
      { ctx with
        streak := newStreak
        todayProgress := newProgress
        progressData := some
          { completedTasks := none, today := none
            flags := some
              { gratitude := newProgress.gratitude, pomodoro := newProgress.pomodoro,
                todo := newProgress.todo, journal := newProgress.journal }
            streak := some newStreak
            lastCompletedDate := some now }
        progressLastUpdated := some now }
    else { ctx with todayProgress := newProgress }
  else { ctx with todayProgress := newProgress }

/-! ## Forced break storage (frontend/src/pages/PomodoroPage.jsx, BreakRedirect.jsx) -/

/-- A value kept in web storage: a plain string, the decimal string of a number, or the
JSON text of one of the two break objects (kept as the object it parses to). -/
inductive StorageValue where
  | text (value : String)
  | number (value : Int)
  | breakData (mode : String) (expiryTime startTime : Int) (cycle : Nat)
      (userId : Option String) (lockUntil : Int)
  | breakMetadata (startedAt : Int) (mode : String) (duration : Int) (cycle : Nat)
      (timestamp : Int) (lockUntil : Int)
  deriving DecidableEq, Repr

/-- A web storage area (`localStorage` or `sessionStorage`): keys with their values. -/
abbrev WebStorage := List (String × StorageValue)

/-- The call `storage.getItem(key)`. -/
def getItem (storage : WebStorage) (key : String) : Option StorageValue :=
  (storage.find? (fun item => item.1 == key)).map (fun item => item.2)

/-- The call `storage.removeItem(key)`. -/
def removeItem (storage : WebStorage) (key : String) : WebStorage :=
  storage.filter (fun item => item.1 != key)

/-- The call `storage.setItem(key, value)`. -/
def setItem (storage : WebStorage) (key : String) (value : StorageValue) : WebStorage :=
  removeItem storage key ++ [(key, value)]

/-- The two storage areas of the browser tab. -/
structure BrowserStorage where
  localStorage : WebStorage
  sessionStorage : WebStorage
  deriving DecidableEq, Repr

/-- The constant `FORCED_BREAK_KEY`. -/
def FORCED_BREAK_KEY : String := "pomodoro_forced_break"

/-- The function `getBreakDuration` of `PomodoroPage.jsx`, in seconds. -/
def getBreakDuration (breakMode : String) : Int :=
  if breakMode = "Beginner" then 5 * 60
  else if breakMode = "Intermediate" then 10 * 60
  else 30 * 60

/-- The storage writes of `startBreakTimer(initialTime)` when no break timer is running,
which is the case inside `startForcedBreak` (it clears `breakTimerRef` first). `mode` is
the component state. -/
def startBreakTimer (mode : String) (now initialTime : Int) (b : BrowserStorage) :
    BrowserStorage :=
  let endTime := now + initialTime * 1000
  let b := { b with sessionStorage := setItem b.sessionStorage "break_end_time" (.number endTime) }
  let b := { b with localStorage := setItem b.localStorage "break_end_time" (.number endTime) }
  let b := { b with sessionStorage := setItem b.sessionStorage "break_in_progress" (.text "true") }
  let b := { b with localStorage := setItem b.localStorage "break_in_progress" (.text "true") }
  let b := { b with localStorage := setItem b.localStorage "break_time_left" (.number initialTime) }
  let b := { b with localStorage := setItem b.localStorage "break_last_saved" (.number now) }
  let b := { b with localStorage := setItem b.localStorage "last_pomodoro_mode" (.text mode) }
  { b with localStorage := setItem b.localStorage "break_start_time" (.number now) }

/-- The storage writes of `startForcedBreak(breakMode)` once it is past its debounce and
its `showForcedBreak` guard. `userId` is `user?.id` (`none` when falsy); `mode` and `cycle`
are the component state. -/
def startForcedBreak (userId : Option String) (mode : String) (cycle : Nat) (now : Int)
    (breakMode : String) (b : BrowserStorage) : BrowserStorage :=
  -- Calculate break time based on mode
  let breakTime := getBreakDuration breakMode
  -- Set expiry time
  let expiryTime := now + breakTime * 1000
  -- Create break data with 24-hour lock
  let breakData : StorageValue :=
    .breakData breakMode expiryTime now cycle userId (now + 24 * 60 * 60 * 1000)
  -- 1. User-specific key in localStorage
  let userSpecificBreakKey :=
    match userId with
    | some id => FORCED_BREAK_KEY ++ "_" ++ id
    | none => FORCED_BREAK_KEY
  let b := { b with localStorage := setItem b.localStorage userSpecificBreakKey breakData }
  -- 2. General key in localStorage
  let b := { b with localStorage := setItem b.localStorage FORCED_BREAK_KEY breakData }
  -- 3. Store mode separately for recovery
  let b := { b with localStorage := setItem b.localStorage "last_pomodoro_mode" (.text breakMode) }
  let b := { b with localStorage := setItem b.localStorage "last_cycle" (.number cycle) }
  -- 4. Set break flags
  let b := { b with sessionStorage := setItem b.sessionStorage "break_in_progress" (.text "true") }
  let b := { b with localStorage := setItem b.localStorage "break_in_progress" (.text "true") }
  -- 5. Store end time
  let b := { b with localStorage := setItem b.localStorage "break_end_time" (.number expiryTime) }
  let b := { b with sessionStorage := setItem b.sessionStorage "break_end_time" (.number expiryTime) }
  -- 6. Store metadata
  let b := { b with
    localStorage := setItem b.localStorage "break_metadata"
      (.breakMetadata now breakMode breakTime cycle now (now + 24 * 60 * 60 * 1000)) }
  -- Start timer
  startBreakTimer mode now breakTime b

/-- The storage effects of `completeBreak` on the break keys. Its other writes go to keys
that `startForcedBreak` does not use (`progress_data`, the timer state, the cycle
completion record). -/
def completeBreak (userId : Option String) (b : BrowserStorage) : BrowserStorage :=
  -- Clean up all break data
  let l := b.localStorage
  let l := removeItem l "break_metadata"
  let l := removeItem l "last_pomodoro_mode"
  let l := removeItem l "break_time_left"
  let l := removeItem l "break_last_saved"
  let l := removeItem l "last_cycle"
  let l := removeItem l "break_end_time"
  let l := removeItem l "break_start_time"
  let l := removeItem l "break_in_progress"
  -- Also remove from user-specific storage if user exists
  let l :=
    match userId with
    | some id => removeItem l (FORCED_BREAK_KEY ++ "_" ++ id)
    | none => removeItem l FORCED_BREAK_KEY
  -- Clean up session storage
  let s := b.sessionStorage
  let s := removeItem s "break_in_progress"
  let s := removeItem s "break_start_time"
  let s := removeItem s "break_end_time"
  let s := removeItem s "break_duration"
  let s := removeItem s "break_expiry_time"
  let s := removeItem s "break_timer_id"
  let s := removeItem s "checked_break_on_startup"
  let s := removeItem s "break_completed"
  -- Set flag indicating break is completed to prevent immediate redirection
  let s := setItem s "break_completed" (.text "true")
  { localStorage := l, sessionStorage := s }

/-- The effect of `BreakRedirect`: whether it calls `setLocation('/pomodoro')`. Its own
`getBreakDuration` is in milliseconds; a stored value that is not a break object yields
undefined fields, for which both comparisons are false. -/
def breakRedirect (location : String) (now : Int) (b : BrowserStorage) : Bool :=
  -- Only check on homepage
  if location ≠ "/" then false
  else
    match getItem b.localStorage FORCED_BREAK_KEY with
    | some (.breakData mode expiryTime startTime _ _ _) =>
      -- Check if the break is within the 24-hour window
      let twentyFourHoursAgo := now - 24 * 60 * 60 * 1000
      let breakStartTime :=
        if startTime ≠ 0 then startTime else expiryTime - getBreakDuration mode * 1000
      decide (now < expiryTime) || decide (breakStartTime > twentyFourHoursAgo)
    | _ => false

/-! ## Flags along a sequence of calls -/

/-- Whether all four flags are true. -/
def CompletedTasks.allTrue (c : CompletedTasks) : Bool :=
  c.gratitude && c.pomodoro && c.todo && c.journal

/-- The flags after the assignments of a sequence of calls, made in order from `c`. It is
computed from the calls alone, not from what `updateTaskCompletion` stores or returns. -/
def flagsAfter (c : CompletedTasks) : List Call → CompletedTasks
  | [] => c
  | call :: rest => flagsAfter (c.set call.taskType call.isCompleted) rest

/-- Whether at some point of the sequence, right after one of its assignments, all four
flags are true. It is computed from the calls alone. -/
def everAllTrue (c : CompletedTasks) : List Call → Bool
  | [] => false
  | call :: rest =>
    (c.set call.taskType call.isCompleted).allTrue ||
      everAllTrue (c.set call.taskType call.isCompleted) rest

/-! ## Local time with a change of offset -/

/-- A server time zone with one change of its UTC offset (a daylight-saving switch): the
offset is `before` milliseconds east of UTC up to the instant `change`, and `after` from
then on. The day of a change that sets the clock back one hour has 25 hours. -/
structure Zone where
  before : Int
  after : Int
  change : Int
  deriving DecidableEq, Repr

/-- The zone that keeps one offset: every local day has 24 hours. -/
def Zone.fixed (tz : Int) : Zone := { before := tz, after := tz, change := 0 }

/-- The UTC offset in force at an instant. -/
def Zone.offset (z : Zone) (t : Int) : Int :=
  if t < z.change then z.before else z.after

/-- The local wall-clock reading of an instant, in milliseconds. -/
def Zone.toLocal (z : Zone) (t : Int) : Int := t + z.offset t

/-- The instant of a local wall-clock reading. A reading that occurs twice (the clock was
set back) or never (the clock was set forward) is taken with the offset in force before the
change, as a JavaScript `Date` does. -/
def Zone.ofLocal (z : Zone) (wall : Int) : Int :=
  if wall - z.before < z.change ∨ wall - z.after < z.change then wall - z.before
  else wall - z.after

/-- The value of `new Date(t).setHours(0, 0, 0, 0)` in the zone: the instant at which the
local calendar day of `t` starts. -/
def Zone.setHours0 (z : Zone) (t : Int) : Int :=
  z.ofLocal (z.toLocal t - z.toLocal t % msPerDay)

/-- The value of `yesterday` in `checkAndUpdateStreak`: `new Date(today)`, then
`setDate(getDate() - 1)`, which moves the wall clock back one calendar day, then
`setHours(0, 0, 0, 0)`. -/
def Zone.yesterday (z : Zone) (today : Int) : Int :=
  z.setHours0 (z.ofLocal (z.toLocal today - msPerDay))

/-- The method `MongoStorage.checkAndUpdateStreak` on a server in the zone `z`: the same
statements as `checkAndUpdateStreak`, with the local-time operations of `Date` taken in
`z`. -/
def checkAndUpdateStreakIn (z : Zone) (now : Int) (db : Users) (userId : Nat) :
    Users × Option TaskResult :=
  match findById db userId with
  | none => (db, none)
  | some user =>
    let lastActive := user.cur.lastActive
    let today := z.setHours0 now
    let lastActiveDay := z.setHours0 lastActive
    let yesterday := z.yesterday today
    -- Calculate days since last activity
    let daysSinceLastActive := (now - lastActive) / msPerDay
    let finish (db : Users) (user : UserDoc) : Users × Option TaskResult :=
      -- Update last active time
      let user := user.setLastActive now
      (save db user,
        some
          { streak := user.cur.streak
            progress := user.cur.progress
            completedTasks := user.cur.completedTasks
            allTasksCompleted := user.cur.completedTasks.values.all id })
    -- Check if we need to reset daily progress (it's a new day)
    if lastActiveDay < today then
      let db := (resetDailyProgress db userId).1
      let allTasksCompletedYesterday :=
        match user.cur.lastStreakUpdate with
        | none => false
        | some t => decide (z.setHours0 t = yesterday)
      if daysSinceLastActive > 1 || !allTasksCompletedYesterday then
        let user := (user.setStreak 0).setLastStreakUpdate none
        (save db user,
          some
            { streak := 0
              progress := 0
              completedTasks :=
                { gratitude := false, pomodoro := false, todo := false, journal := false }
              allTasksCompleted := false })
      else finish db user
    else finish db user

/-! ## Sample records -/

/-- A record whose Day 1 (the day starting at instant 0, time zone offset 0) ended with
three flags true and no streak award: last active at 01:00 of Day 1. -/
def threeOfFour : User :=
  { _id := 1, username := "u1", email := "u1@example.org", password := "hash", streak := 0,
    lastActive := 3600000,
    completedTasks := { gratitude := true, pomodoro := true, todo := false, journal := true },
    progress := 75, lastStreakUpdate := none }

/-- A record whose Day 1 ended with all four flags true and the streak awarded at 01:00
of Day 1. -/
def awardedDay1 : User :=
  { _id := 1, username := "u1", email := "u1@example.org", password := "hash", streak := 1,
    lastActive := 3600000,
    completedTasks := { gratitude := true, pomodoro := true, todo := true, journal := true },
    progress := 100, lastStreakUpdate := some 3600000 }

/-- A record with a streak of 3 awarded on Day 1, active again at the start of Day 2 with
three flags true. -/
def streakOfThree : User :=
  { _id := 1, username := "u1", email := "u1@example.org", password := "hash", streak := 3,
    lastActive := 86400100,
    completedTasks := { gratitude := true, pomodoro := true, todo := false, journal := true },
    progress := 75, lastStreakUpdate := some 3600000 }

/-- Three calls on Day 2: todo ticked, unticked and ticked again. -/
def toggleTodo : List Call :=
  [{ now := 86400200, taskType := .todo, isCompleted := true },
   { now := 86400300, taskType := .todo, isCompleted := false },
   { now := 86400400, taskType := .todo, isCompleted := true }]

/-- A store with no user record, and one completed todo item filed under user 7. -/
def orphanStore : Store :=
  { users := [], gratitudeEntries := [], journalEntries := [], pomodoroSessions := [],
    todos := [{ _id := 50, userId := 7, text := "walk", completed := true, date := 1000 }] }

/-- A store holding the record `threeOfFour` and one completed todo item of that user. -/
def todoStore : Store :=
  { users := [threeOfFour], gratitudeEntries := [], journalEntries := [],
    pomodoroSessions := [],
    todos := [{ _id := 50, userId := 1, text := "walk", completed := true, date := 1000 }] }

/-- A tick on Day 1, a read on Day 2 and a forced reset. -/
def sampleOps : List ProgressOp :=
  [.updateTask 2000 1 .gratitude true, .checkStreak 90000000 1, .resetDaily 1]

/-- A record active at 01:00 of Day 2 with the journal flag as its only flag. -/
def onlyJournal : User :=
  { _id := 1, username := "u1", email := "u1@example.org", password := "hash", streak := 0,
    lastActive := 90000000,
    completedTasks := { gratitude := false, pomodoro := false, todo := false, journal := true },
    progress := 25, lastStreakUpdate := none }

/-- A store holding `onlyJournal` and two journal entries of that user, one written on Day 1
and one on Day 2. -/
def journalStore : Store :=
  { users := [onlyJournal], gratitudeEntries := [],
    journalEntries :=
      [{ _id := 80, userId := 1, title := "monday", content := "notes", date := 3600000 },
       { _id := 81, userId := 1, title := "tuesday", content := "notes", date := 90000000 }],
    pomodoroSessions := [], todos := [] }

/-- A record with pomodoro and journal done, gratitude and todo still open, no award yet. -/
def twoOfFour : User :=
  { _id := 1, username := "u1", email := "u1@example.org", password := "hash", streak := 0,
    lastActive := 3600000,
    completedTasks := { gratitude := false, pomodoro := true, todo := false, journal := true },
    progress := 50, lastStreakUpdate := none }

/-- The gratitude producer reporting completion at 02:00 of Day 1. -/
def tickGratitude : Call := { now := 7200000, taskType := .gratitude, isCompleted := true }

/-- The todo producer reporting completion at the same instant. -/
def tickTodo : Call := { now := 7200000, taskType := .todo, isCompleted := true }

/-- The progress context after the server confirmed all four tasks and a streak of 1. -/
def allDoneLocally : ProgressContext :=
  { streak := 1
    todayProgress :=
      { pomodoro := true, journal := true, gratitude := true, todo := true, streak := some 1 }
    allTasksCompleted := true
    lastCompletedDate := none
    progressData := some
      { completedTasks :=
          some { gratitude := true, pomodoro := true, todo := true, journal := true }
        today := none, flags := none, streak := some 1, lastCompletedDate := none }
    progressLastUpdated := some 3600000
    storedLastCompletedDate := none }

/-- A progress context with three tasks done, a streak of 2 and no `last_completed_date`. -/
def threeDoneLocally : ProgressContext :=
  { streak := 2
    todayProgress :=
      { pomodoro := true, journal := true, gratitude := true, todo := false, streak := some 2 }
    allTasksCompleted := false
    lastCompletedDate := none
    progressData := none
    progressLastUpdated := none
    storedLastCompletedDate := none }

/-- A browser tab with both storage areas empty. -/
def emptyBrowser : BrowserStorage := { localStorage := [], sessionStorage := [] }

/-- A zone two hours east of UTC that falls back to one hour east at 03:00 local time of
Day 2 (instant 90000000): Day 2 starts at 79200000 and has 25 hours, Day 3 starts at
169200000. -/
def fallBackZone : Zone := { before := 7200000, after := 3600000, change := 90000000 }

/-- A record whose streak was awarded at 00:10 of Day 2 in `fallBackZone`, the time of its
last activity. -/
def awardedOnLongDay : User :=
  { _id := 1, username := "u1", email := "u1@example.org", password := "hash", streak := 1,
    lastActive := 79800000,
    completedTasks := { gratitude := true, pomodoro := true, todo := true, journal := true },
    progress := 100, lastStreakUpdate := some 79800000 }

/-! ## The store -/

theorem findById_of_stored {db : Users} {userId : Nat} {u : User}
    (h : stored db userId = some u) : findById db userId = some { cur := u, modified := {} } := by
  simp [findById, h]

theorem stored_id {db : Users} {userId : Nat} {u : User}
    (h : stored db userId = some u) : u._id = userId := by
  have := List.find?_some h
  simpa using this

theorem stored_save (db : Users) (d : UserDoc) (userId : Nat) :
    stored (save db d) userId =
      (stored db userId).map (fun u => if u._id == d.cur._id then applyModified d u else u) := by
  unfold stored save
  rw [List.find?_map]
  congr 2
  funext u
  by_cases hd : u._id = d.cur._id <;> simp [hd, applyModified]

theorem ite_sync {α : Type} (m : Bool) (a b : α) (h : m = false → a = b) :
    (if m = true then a else b) = a := by
  cases m <;> simp_all

theorem applyModified_of_inSync {d : UserDoc} {u : User} (h : InSync d u) :
    applyModified d u = d.cur := by
  obtain ⟨⟨i, un, em, pw, s, la, ⟨g, p, t, j⟩, pr, lsu⟩, m⟩ := d
  obtain ⟨i', un', em', pw', s', la', ⟨g', p', t', j'⟩, pr', lsu'⟩ := u
  obtain ⟨h1, h2, h3, h4, h5, h6, h7, h8, h9, h10, h11, h12⟩ := h
  simp only at h1 h2 h3 h4 h5 h6 h7 h8 h9 h10 h11 h12
  subst h1 h2 h3 h4
  simp only [applyModified, ite_sync _ _ _ h5, ite_sync _ _ _ h6, ite_sync _ _ _ h7,
    ite_sync _ _ _ h8, ite_sync _ _ _ h9, ite_sync _ _ _ h10, ite_sync _ _ _ h11,
    ite_sync _ _ _ h12]

theorem inSync_fresh (u : User) : InSync { cur := u, modified := {} } u := by
  simp [InSync]

theorem inSync_setStreak {d : UserDoc} {u : User} (h : InSync d u) (v : Nat) :
    InSync (d.setStreak v) u := by
  simp only [InSync, UserDoc.setStreak] at *
  simp_all

theorem inSync_setLastActive {d : UserDoc} {u : User} (h : InSync d u) (v : Int) :
    InSync (d.setLastActive v) u := by
  simp only [InSync, UserDoc.setLastActive] at *
  simp_all

theorem inSync_setProgress {d : UserDoc} {u : User} (h : InSync d u) (v : ℚ) :
    InSync (d.setProgress v) u := by
  simp only [InSync, UserDoc.setProgress] at *
  simp_all

theorem inSync_setLastStreakUpdate {d : UserDoc} {u : User} (h : InSync d u) (v : Option Int) :
    InSync (d.setLastStreakUpdate v) u := by
  simp only [InSync, UserDoc.setLastStreakUpdate] at *
  simp_all

theorem inSync_setTask {d : UserDoc} {u : User} (h : InSync d u) (k : TaskType) (v : Bool) :
    InSync (d.setTask k v) u := by
  cases k <;> simp only [InSync, UserDoc.setTask, CompletedTasks.set] at * <;> simp_all

theorem stored_save_inSync {db : Users} {userId : Nat} {u : User} {d : UserDoc}
    (h : stored db userId = some u) (hs : InSync d u) :
    stored (save db d) userId = some d.cur := by
  rw [stored_save, h]
  have : u._id = d.cur._id := hs.1.symm
  simp [this, applyModified_of_inSync hs]

theorem setTask_cur (d : UserDoc) (k : TaskType) (v : Bool) :
    (d.setTask k v).cur = { d.cur with completedTasks := d.cur.completedTasks.set k v } := rfl

theorem setProgress_cur (d : UserDoc) (v : ℚ) :
    (d.setProgress v).cur = { d.cur with progress := v } := rfl

theorem setLastActive_cur (d : UserDoc) (v : Int) :
    (d.setLastActive v).cur = { d.cur with lastActive := v } := rfl

theorem setStreak_cur (d : UserDoc) (v : Nat) :
    (d.setStreak v).cur = { d.cur with streak := v } := rfl

theorem setLastStreakUpdate_cur (d : UserDoc) (v : Option Int) :
    (d.setLastStreakUpdate v).cur = { d.cur with lastStreakUpdate := v } := rfl

/-! ## updateTaskCompletion: the stored record and the returned value -/

/-- The record stored by `updateTaskCompletion` for an existing user. -/
theorem updateTaskCompletion_stored (tz now : Int) {db : Users} {userId : Nat} {u : User}
    (taskType : TaskType) (isCompleted : Bool) (h : stored db userId = some u) :
    stored (updateTaskCompletion tz now db userId taskType isCompleted).1 userId = some
      { u with
        completedTasks := u.completedTasks.set taskType isCompleted
        progress :=
          ((((u.completedTasks.set taskType isCompleted).values.filter id).length : ℚ) / 4) * 100
        lastActive := now
        streak := if awards tz now u taskType isCompleted then u.streak + 1 else u.streak
        lastStreakUpdate :=
          if awards tz now u taskType isCompleted then some now else u.lastStreakUpdate } := by
  unfold updateTaskCompletion
  rw [findById_of_stored h]
  have h0 := inSync_setLastActive (inSync_setProgress (inSync_setTask (inSync_fresh u)
    taskType isCompleted)
    ((((u.completedTasks.set taskType isCompleted).values.filter id).length : ℚ) / 4 * 100)) now
  have h1 := inSync_setLastStreakUpdate (inSync_setStreak h0 (u.streak + 1)) (some now)
  simp only [setTask_cur, setProgress_cur, setLastActive_cur, setStreak_cur,
    setLastStreakUpdate_cur]
  by_cases hall : (u.completedTasks.set taskType isCompleted).values.all id = true
  · by_cases hlu : u.lastStreakUpdate.map (setHours0 tz) = some (setHours0 tz now)
    · have ha : awards tz now u taskType isCompleted = false := by simp [awards, hlu]
      simp only [hall, hlu, ha, if_true, ne_eq, not_true_eq_false, Bool.false_eq_true, if_false]
      rw [stored_save_inSync h h0]
      simp only [setTask_cur, setProgress_cur, setLastActive_cur, Bool.false_eq_true, if_false]
    · have ha : awards tz now u taskType isCompleted = true := by simp [awards, hlu, hall]
      simp only [hall, hlu, ha, if_true, ne_eq, not_false_eq_true]
      rw [stored_save_inSync h h1]
      simp only [setTask_cur, setProgress_cur, setLastActive_cur, setStreak_cur,
        setLastStreakUpdate_cur]
  · have ha : awards tz now u taskType isCompleted = false := by simp [awards, hall]
    simp only [hall, ha, Bool.false_eq_true, if_false]
    rw [stored_save_inSync h h0]
    simp only [setTask_cur, setProgress_cur, setLastActive_cur, Bool.false_eq_true, if_false]

/-- The value returned by `updateTaskCompletion` for an existing user. -/
theorem updateTaskCompletion_result (tz now : Int) {db : Users} {userId : Nat} {u : User}
    (taskType : TaskType) (isCompleted : Bool) (h : stored db userId = some u) :
    (updateTaskCompletion tz now db userId taskType isCompleted).2 = some
      { completedTasks := u.completedTasks.set taskType isCompleted
        progress :=
          ((((u.completedTasks.set taskType isCompleted).values.filter id).length : ℚ) / 4) * 100
        streak := if awards tz now u taskType isCompleted then u.streak + 1 else u.streak
        allTasksCompleted := (u.completedTasks.set taskType isCompleted).values.all id } := by
  unfold updateTaskCompletion
  rw [findById_of_stored h]
  simp only [setTask_cur, setProgress_cur, setLastActive_cur, setStreak_cur,
    setLastStreakUpdate_cur]
  by_cases hall : (u.completedTasks.set taskType isCompleted).values.all id = true
  · by_cases hlu : u.lastStreakUpdate.map (setHours0 tz) = some (setHours0 tz now)
    · have ha : awards tz now u taskType isCompleted = false := by simp [awards, hlu]
      simp only [hall, hlu, ha, if_true, ne_eq, not_true_eq_false, Bool.false_eq_true, if_false,
        setTask_cur, setProgress_cur, setLastActive_cur]
    · have ha : awards tz now u taskType isCompleted = true := by simp [awards, hlu, hall]
      simp only [hall, hlu, ha, if_true, ne_eq, not_false_eq_true, setTask_cur, setProgress_cur,
        setLastActive_cur, setStreak_cur, setLastStreakUpdate_cur]
  · have ha : awards tz now u taskType isCompleted = false := by simp [awards, hall]
    simp only [hall, ha, Bool.false_eq_true, if_false, setTask_cur, setProgress_cur,
      setLastActive_cur]

/-! ## Calendar days and the award guard -/

theorem setHours0_mono (tz : Int) {a b : Int} (h : a ≤ b) : setHours0 tz a ≤ setHours0 tz b := by
  simp only [setHours0, msPerDay]
  norm_num
  omega

theorem all_values_iff (c : CompletedTasks) :
    c.values.all id = true ↔
      c = { gratitude := true, pomodoro := true, todo := true, journal := true } := by
  obtain ⟨g, p, t, j⟩ := c
  cases g <;> cases p <;> cases t <;> cases j <;> simp [CompletedTasks.values]

theorem awards_iff (tz now : Int) (u : User) (taskType : TaskType) (isCompleted : Bool) :
    awards tz now u taskType isCompleted = true ↔
      (u.completedTasks.set taskType isCompleted =
          { gratitude := true, pomodoro := true, todo := true, journal := true } ∧
        (u.lastStreakUpdate = none ∨
          ∃ t, u.lastStreakUpdate = some t ∧ setHours0 tz t ≠ setHours0 tz now)) := by
  unfold awards
  rw [Bool.and_eq_true, all_values_iff]
  cases hl : u.lastStreakUpdate with
  | none => simp
  | some t => simp

/-! ## Sequences of calls -/

theorem allTrue_eq_all (c : CompletedTasks) : c.allTrue = c.values.all id := by
  obtain ⟨g, p, t, j⟩ := c
  cases g <;> cases p <;> cases t <;> cases j <;> rfl

/-- One call on a stored record: the flags, streak and `lastStreakUpdate` stored afterwards,
and what the call reports. -/
theorem updateTaskCompletion_step (tz now : Int) {db : Users} {userId : Nat} {u : User}
    (taskType : TaskType) (isCompleted : Bool) (h : stored db userId = some u) :
    ∃ u1, stored (updateTaskCompletion tz now db userId taskType isCompleted).1 userId = some u1 ∧
      u1.completedTasks = u.completedTasks.set taskType isCompleted ∧
      u1.streak = (if awards tz now u taskType isCompleted then u.streak + 1 else u.streak) ∧
      u1.lastStreakUpdate =
        (if awards tz now u taskType isCompleted then some now else u.lastStreakUpdate) ∧
      reportsAllCompleted (updateTaskCompletion tz now db userId taskType isCompleted).2 =
        (u.completedTasks.set taskType isCompleted).allTrue := by
  refine ⟨_, updateTaskCompletion_stored tz now taskType isCompleted h, rfl, rfl, rfl, ?_⟩
  rw [updateTaskCompletion_result tz now taskType isCompleted h, allTrue_eq_all]
  rfl

/-- Once the streak has been awarded on a day, a sequence of calls made on that day stores
the flags of its assignments and changes neither streak nor `lastStreakUpdate`. -/
theorem runCalls_after_award (tz D : Int) (userId : Nat) (calls : List Call) :
    ∀ (db : Users) (u : User) (t : Int), stored db userId = some u →
      u.lastStreakUpdate = some t → setHours0 tz t = D →
      (∀ c ∈ calls, setHours0 tz c.now = D) →
      ∃ u', stored (runCalls tz db userId calls).1 userId = some u' ∧
        u'.completedTasks = flagsAfter u.completedTasks calls ∧
        u'.streak = u.streak ∧ u'.lastStreakUpdate = u.lastStreakUpdate := by
  induction calls with
  | nil => intro db u t h _ _ _; exact ⟨u, h, rfl, rfl, rfl⟩
  | cons c cs ih =>
    intro db u t h hl ht hday
    obtain ⟨u1, hs1, hfl, hst, hlu, -⟩ :=
      updateTaskCompletion_step tz c.now c.taskType c.isCompleted h
    have hc : setHours0 tz c.now = D := hday c (List.mem_cons_self _ _)
    have ha : awards tz c.now u c.taskType c.isCompleted = false := by
      simp [awards, hl, ht, hc]
    simp only [ha, Bool.false_eq_true, if_false] at hst hlu
    obtain ⟨u', hs', hfl', hst', hlu'⟩ := ih _ u1 t hs1 (hlu.trans hl) ht
      (fun c' hc' => hday c' (List.mem_cons_of_mem _ hc'))
    exact ⟨u', hs', by rw [hfl', hfl]; rfl, hst'.trans hst, hlu'.trans hlu⟩

/-- Some call of a sequence reports `allTasksCompleted` exactly when the flags are all true
right after one of its assignments. -/
theorem runCalls_reports (tz : Int) (userId : Nat) (calls : List Call) :
    ∀ (db : Users) (u : User), stored db userId = some u →
      (runCalls tz db userId calls).2.any reportsAllCompleted =
        everAllTrue u.completedTasks calls := by
  induction calls with
  | nil => intro db u _; rfl
  | cons c cs ih =>
    intro db u h
    obtain ⟨u1, hs1, hfl, -, -, hrep⟩ :=
      updateTaskCompletion_step tz c.now c.taskType c.isCompleted h
    simp only [runCalls, List.any_cons, everAllTrue, hrep, ih _ u1 hs1, hfl]

/-! ## createUser, resetDailyProgress and checkAndUpdateStreak -/

theorem createUser_stored {now : Int} {db : Users} {newId : Nat}
    {username email hashedPassword : String}
    (hnew : (createUser now db newId username email hashedPassword).2 ≠ none) :
    stored (createUser now db newId username email hashedPassword).1 newId = some
      { _id := newId, username := username, email := email, password := hashedPassword,
        streak := 0, lastActive := now,
        completedTasks :=
          { gratitude := false, pomodoro := false, todo := false, journal := false },
        progress := 0, lastStreakUpdate := none } := by
  unfold createUser at hnew ⊢
  by_cases hdup :
      db.any (fun u => u._id == newId || u.username == username || u.email == email) = true
  · simp [hdup] at hnew
  · simp only [hdup, Bool.false_eq_true, if_false]
    have hnone : db.find? (fun u => u._id == newId) = none := by
      rw [List.find?_eq_none]
      intro u hu hid
      apply hdup
      rw [List.any_eq_true]
      exact ⟨u, hu, by simp [hid]⟩
    simp [stored, List.find?_append, hnone]

theorem setCompletedTasks_cur (d : UserDoc) (c : CompletedTasks) :
    (d.setCompletedTasks c).cur = { d.cur with completedTasks := c } := rfl

theorem inSync_setCompletedTasks {d : UserDoc} {u : User} (h : InSync d u) (c : CompletedTasks) :
    InSync (d.setCompletedTasks c) u := by
  unfold UserDoc.setCompletedTasks
  exact inSync_setTask (inSync_setTask (inSync_setTask (inSync_setTask h _ _) _ _) _ _) _ _

/-- The record stored by `resetDailyProgress` for an existing user. -/
theorem resetDailyProgress_stored {db : Users} {userId : Nat} {u : User}
    (h : stored db userId = some u) :
    stored (resetDailyProgress db userId).1 userId = some
      { u with
        completedTasks :=
          { gratitude := false, pomodoro := false, todo := false, journal := false }
        progress := 0 } := by
  unfold resetDailyProgress
  rw [findById_of_stored h]
  simp only
  rw [stored_save_inSync h (inSync_setProgress (inSync_setCompletedTasks (inSync_fresh u) _) 0)]
  simp only [setProgress_cur, setCompletedTasks_cur]

theorem applyModified_setLastActive (u s : User) (v : Int) (hs : s.lastActive = u.lastActive) :
    applyModified (UserDoc.setLastActive { cur := u, modified := {} } v) s =
      { s with lastActive := v } := by
  by_cases hv : v = u.lastActive
  · simp [applyModified, UserDoc.setLastActive, hv, hs]
  · simp [applyModified, UserDoc.setLastActive, hv]

theorem applyModified_streakReset (u s : User) (h1 : s.streak = u.streak)
    (h2 : s.lastStreakUpdate = u.lastStreakUpdate) :
    applyModified
        (UserDoc.setLastStreakUpdate (UserDoc.setStreak { cur := u, modified := {} } 0) none) s =
      { s with streak := 0, lastStreakUpdate := none } := by
  obtain ⟨i, un, em, pw, st, la, c, pr, lsu⟩ := u
  obtain ⟨i', un', em', pw', st', la', c', pr', lsu'⟩ := s
  simp only at h1 h2
  subst h1 h2
  have hst : (if (false || (0 != st')) = true then 0 else st') = 0 := by
    by_cases hv : st' = 0
    · simp [hv]
    · have : (0 != st') = true := by simpa using Ne.symm hv
      simp [this]
  have hlsu : (if (false || (none != lsu')) = true then none else lsu') = none := by
    cases lsu' <;> simp
  simp only [applyModified, UserDoc.setLastStreakUpdate, UserDoc.setStreak, hst, hlsu,
    Bool.false_eq_true, if_false]

theorem setHours0_yesterday (tz now : Int) :
    setHours0 tz (setHours0 tz now - msPerDay) = setHours0 tz now - msPerDay := by
  simp only [setHours0, msPerDay]
  norm_num
  omega

/-- New day, streak broken: the value returned and the record stored by
`checkAndUpdateStreak`. -/
theorem checkAndUpdateStreak_broken (tz now : Int) {db : Users} {userId : Nat} {u : User}
    (h : stored db userId = some u)
    (hnew : setHours0 tz u.lastActive < setHours0 tz now)
    (hbreak : 1 < (now - u.lastActive) / msPerDay ∨
      ∀ t, u.lastStreakUpdate = some t → setHours0 tz t ≠ setHours0 tz now - msPerDay) :
    (checkAndUpdateStreak tz now db userId).2 = some
        { streak := 0, progress := 0,
          completedTasks :=
            { gratitude := false, pomodoro := false, todo := false, journal := false },
          allTasksCompleted := false } ∧
      stored (checkAndUpdateStreak tz now db userId).1 userId = some
        { u with
          completedTasks :=
            { gratitude := false, pomodoro := false, todo := false, journal := false }
          progress := 0, streak := 0, lastStreakUpdate := none } := by
  have hcond : (decide ((now - u.lastActive) / msPerDay > 1) ||
      !(match u.lastStreakUpdate with
        | none => false
        | some t => decide (setHours0 tz t = setHours0 tz (setHours0 tz now - msPerDay)))) = true := by
    rw [setHours0_yesterday]
    rcases hbreak with hd | hy
    · simp [hd]
    · cases hl : u.lastStreakUpdate with
      | none => simp
      | some t => simp [hy t hl]
  unfold checkAndUpdateStreak
  rw [findById_of_stored h]
  simp only [hnew, if_true, hcond, true_and]
  rw [stored_save, resetDailyProgress_stored h]
  simp only [Option.map_some', setLastStreakUpdate_cur, setStreak_cur, beq_self_eq_true, if_true]
  exact congrArg some (applyModified_streakReset u _ rfl rfl)

/-- New day, streak kept: the value returned and the record stored by
`checkAndUpdateStreak`. -/
theorem checkAndUpdateStreak_kept (tz now : Int) {db : Users} {userId : Nat} {u : User} {t : Int}
    (h : stored db userId = some u)
    (hnew : setHours0 tz u.lastActive < setHours0 tz now)
    (hdays : (now - u.lastActive) / msPerDay ≤ 1)
    (hl : u.lastStreakUpdate = some t)
    (hy : setHours0 tz t = setHours0 tz now - msPerDay) :
    (checkAndUpdateStreak tz now db userId).2 = some
        { streak := u.streak, progress := u.progress, completedTasks := u.completedTasks,
          allTasksCompleted := u.completedTasks.values.all id } ∧
      stored (checkAndUpdateStreak tz now db userId).1 userId = some
        { u with
          completedTasks :=
            { gratitude := false, pomodoro := false, todo := false, journal := false }
          progress := 0, lastActive := now } := by
  have hcond : (decide ((now - u.lastActive) / msPerDay > 1) ||
      !(match u.lastStreakUpdate with
        | none => false
        | some t => decide (setHours0 tz t = setHours0 tz (setHours0 tz now - msPerDay)))) = false := by
    rw [setHours0_yesterday, hl]
    simp [hy, hdays]
  unfold checkAndUpdateStreak
  rw [findById_of_stored h]
  simp only [hnew, if_true, hcond, Bool.false_eq_true, if_false]
  refine ⟨rfl, ?_⟩
  rw [stored_save, resetDailyProgress_stored h]
  simp only [Option.map_some', setLastActive_cur, beq_self_eq_true, if_true]
  exact congrArg some (applyModified_setLastActive u _ now rfl)

/-! ## Claims about updateTaskCompletion -/

/-- C1: for an existing user record, every task kind and every boolean,
`updateTaskCompletion` stores and returns a progress equal to 25 times the number of true
flags of the updated `completedTasks`; that value is 100 exactly when all four flags are
true, and exactly then the returned `allTasksCompleted` is true. -/
theorem updateTaskCompletion_progress (tz now : Int) (db : Users) (userId : Nat) (u : User)
    (taskType : TaskType) (isCompleted : Bool) (h : stored db userId = some u) :
    ∃ r u', (updateTaskCompletion tz now db userId taskType isCompleted).2 = some r ∧
      stored (updateTaskCompletion tz now db userId taskType isCompleted).1 userId = some u' ∧
      u'.completedTasks = u.completedTasks.set taskType isCompleted ∧
      r.completedTasks = u'.completedTasks ∧
      u'.progress = 25 * (u'.completedTasks.values.count true : ℚ) ∧
      r.progress = 25 * (u'.completedTasks.values.count true : ℚ) ∧
      (r.progress = 100 ↔
        u'.completedTasks =
          { gratitude := true, pomodoro := true, todo := true, journal := true }) ∧
      (r.allTasksCompleted = true ↔ r.progress = 100) := by
  refine ⟨_, _, updateTaskCompletion_result tz now taskType isCompleted h,
    updateTaskCompletion_stored tz now taskType isCompleted h, rfl, rfl, ?_⟩
  simp only
  generalize u.completedTasks.set taskType isCompleted = c
  obtain ⟨g, p, t, j⟩ := c
  cases g <;> cases p <;> cases t <;> cases j <;>
    simp [CompletedTasks.values] <;> norm_num

theorem updateTaskCompletion_progress_witness :
    stored [threeOfFour] 1 = some threeOfFour ∧
    ∃ r u', (updateTaskCompletion 0 7200000 [threeOfFour] 1 .todo true).2 = some r ∧
      stored (updateTaskCompletion 0 7200000 [threeOfFour] 1 .todo true).1 1 = some u' ∧
      u'.completedTasks = threeOfFour.completedTasks.set .todo true ∧
      r.completedTasks = u'.completedTasks ∧
      u'.progress = 25 * (u'.completedTasks.values.count true : ℚ) ∧
      r.progress = 25 * (u'.completedTasks.values.count true : ℚ) ∧
      (r.progress = 100 ↔
        u'.completedTasks =
          { gratitude := true, pomodoro := true, todo := true, journal := true }) ∧
      (r.allTasksCompleted = true ↔ r.progress = 100) :=
  ⟨rfl, updateTaskCompletion_progress 0 7200000 [threeOfFour] 1 threeOfFour .todo true rfl⟩

/-- C2: for a record whose `lastStreakUpdate` is null or on an earlier calendar day, and every
finite sequence of `updateTaskCompletion` calls made on one calendar day `D`, the record
stored afterwards holds the flags of the assignments made in order, and its streak has grown
by exactly 1 in total if the four flags are all true right after some assignment of the
sequence, and by 0 otherwise; so ticking a task off and on again after the award never awards
a second time. The flags are computed from the calls alone (`flagsAfter`, `everAllTrue`); the
calls report `allTasksCompleted` at exactly those points. -/
theorem runCalls_streak_once (tz D : Int) (userId : Nat) (calls : List Call) (db : Users)
    (u : User) (h : stored db userId = some u)
    (hl : ∀ t, u.lastStreakUpdate = some t → setHours0 tz t < D)
    (hday : ∀ c ∈ calls, setHours0 tz c.now = D) :
    (∃ u', stored (runCalls tz db userId calls).1 userId = some u' ∧
      u'.completedTasks = flagsAfter u.completedTasks calls ∧
      u'.streak = u.streak + (if everAllTrue u.completedTasks calls then 1 else 0)) ∧
    (runCalls tz db userId calls).2.any reportsAllCompleted =
      everAllTrue u.completedTasks calls := by
  refine ⟨?_, runCalls_reports tz userId calls db u h⟩
  induction calls generalizing db u with
  | nil => exact ⟨u, h, rfl, by simp [everAllTrue]⟩
  | cons c cs ih =>
    obtain ⟨u1, hs1, hfl, hst, hlu, -⟩ :=
      updateTaskCompletion_step tz c.now c.taskType c.isCompleted h
    have hc : setHours0 tz c.now = D := hday c (List.mem_cons_self _ _)
    have hrest : ∀ c' ∈ cs, setHours0 tz c'.now = D :=
      fun c' hc' => hday c' (List.mem_cons_of_mem _ hc')
    have ha : awards tz c.now u c.taskType c.isCompleted =
        (u.completedTasks.set c.taskType c.isCompleted).allTrue := by
      rw [allTrue_eq_all]
      unfold awards
      cases hlsu : u.lastStreakUpdate with
      | none => simp
      | some t =>
        have hne : setHours0 tz t ≠ setHours0 tz c.now := by
          rw [hc]; exact ne_of_lt (hl t hlsu)
        simp [hne]
    rw [ha] at hst hlu
    simp only [runCalls, everAllTrue, flagsAfter]
    rcases Bool.eq_false_or_eq_true (u.completedTasks.set c.taskType c.isCompleted).allTrue
      with hall | hall
    · simp only [hall, if_true] at hst hlu
      obtain ⟨u', hs', hfl', hst', -⟩ :=
        runCalls_after_award tz D userId cs _ u1 c.now hs1 hlu hc hrest
      refine ⟨u', hs', by rw [hfl', hfl], ?_⟩
      rw [hst', hst]
      simp [hall]
    · simp only [hall, Bool.false_eq_true, if_false] at hst hlu
      obtain ⟨u', hs', hfl', hst'⟩ := ih _ u1 hs1 (by rw [hlu]; exact hl) hrest
      refine ⟨u', hs', by rw [hfl', hfl], ?_⟩
      rw [hst', hst, hfl]
      simp [hall]

theorem runCalls_streak_once_witness :
    stored [streakOfThree] 1 = some streakOfThree ∧
    (∀ t, streakOfThree.lastStreakUpdate = some t → setHours0 0 t < 86400000) ∧
    (∀ c ∈ toggleTodo, setHours0 0 c.now = 86400000) ∧
    streakOfThree.streak = 3 ∧
    everAllTrue streakOfThree.completedTasks toggleTodo = true ∧
    (∃ u', stored (runCalls 0 [streakOfThree] 1 toggleTodo).1 1 = some u' ∧
      u'.completedTasks =
        { gratitude := true, pomodoro := true, todo := true, journal := true } ∧
      u'.streak = 4) ∧
    (runCalls 0 [streakOfThree] 1 toggleTodo).2.any reportsAllCompleted = true :=
  have hl : ∀ t, streakOfThree.lastStreakUpdate = some t → setHours0 0 t < 86400000 := by
    intro t ht
    have : t = 3600000 := by simpa [streakOfThree] using ht.symm
    subst this
    decide
  have hday : ∀ c ∈ toggleTodo, setHours0 0 c.now = 86400000 := by decide
  have hmain :=
    runCalls_streak_once 0 86400000 1 toggleTodo [streakOfThree] streakOfThree rfl hl hday
  ⟨rfl, hl, hday, rfl, by decide,
    hmain.1.imp (fun _ hu => ⟨hu.1, hu.2.1.trans (by decide), hu.2.2.trans (by decide)⟩),
    hmain.2.trans (by decide)⟩

/-- C3: `updateTaskCompletion` increments the streak by exactly 1 and sets `lastStreakUpdate`
to now if and only if, after the flag is written, all four flags are true and
`lastStreakUpdate` is null or on a calendar day strictly before today's; in every other case
streak and `lastStreakUpdate` are unchanged. The stored `lastStreakUpdate` is a past reading of
the same clock, so it is not later than now. -/
theorem updateTaskCompletion_streak_award (tz now : Int) (db : Users) (userId : Nat) (u : User)
    (taskType : TaskType) (isCompleted : Bool) (h : stored db userId = some u)
    (hclock : ∀ t, u.lastStreakUpdate = some t → t ≤ now) :
    ∃ u', stored (updateTaskCompletion tz now db userId taskType isCompleted).1 userId = some u' ∧
      ((u'.streak = u.streak + 1 ∧ u'.lastStreakUpdate = some now) ↔
        (u'.completedTasks =
            { gratitude := true, pomodoro := true, todo := true, journal := true } ∧
          (u.lastStreakUpdate = none ∨
            ∃ t, u.lastStreakUpdate = some t ∧ setHours0 tz t < setHours0 tz now))) ∧
      (¬ (u'.completedTasks =
            { gratitude := true, pomodoro := true, todo := true, journal := true } ∧
          (u.lastStreakUpdate = none ∨
            ∃ t, u.lastStreakUpdate = some t ∧ setHours0 tz t < setHours0 tz now)) →
        u'.streak = u.streak ∧ u'.lastStreakUpdate = u.lastStreakUpdate) := by
  refine ⟨_, updateTaskCompletion_stored tz now taskType isCompleted h, ?_⟩
  simp only
  have hlt : (u.lastStreakUpdate = none ∨
      ∃ t, u.lastStreakUpdate = some t ∧ setHours0 tz t < setHours0 tz now) ↔
      (u.lastStreakUpdate = none ∨
        ∃ t, u.lastStreakUpdate = some t ∧ setHours0 tz t ≠ setHours0 tz now) := by
    constructor
    · rintro (hn | ⟨t, ht, hlt⟩)
      · exact Or.inl hn
      · exact Or.inr ⟨t, ht, ne_of_lt hlt⟩
    · rintro (hn | ⟨t, ht, hne⟩)
      · exact Or.inl hn
      · exact Or.inr ⟨t, ht, lt_of_le_of_ne (setHours0_mono tz (hclock t ht)) hne⟩
  rw [hlt, ← awards_iff]
  cases ha : awards tz now u taskType isCompleted <;> simp

theorem updateTaskCompletion_streak_award_witness :
    stored [streakOfThree] 1 = some streakOfThree ∧
    (∀ t, streakOfThree.lastStreakUpdate = some t → t ≤ 86400200) ∧
    ∃ u', stored (updateTaskCompletion 0 86400200 [streakOfThree] 1 .todo true).1 1 = some u' ∧
      ((u'.streak = streakOfThree.streak + 1 ∧ u'.lastStreakUpdate = some 86400200) ↔
        (u'.completedTasks =
            { gratitude := true, pomodoro := true, todo := true, journal := true } ∧
          (streakOfThree.lastStreakUpdate = none ∨
            ∃ t, streakOfThree.lastStreakUpdate = some t ∧
              setHours0 0 t < setHours0 0 86400200))) ∧
      (¬ (u'.completedTasks =
            { gratitude := true, pomodoro := true, todo := true, journal := true } ∧
          (streakOfThree.lastStreakUpdate = none ∨
            ∃ t, streakOfThree.lastStreakUpdate = some t ∧
              setHours0 0 t < setHours0 0 86400200)) →
        u'.streak = streakOfThree.streak ∧
          u'.lastStreakUpdate = streakOfThree.lastStreakUpdate) :=
  have hclock : ∀ t, streakOfThree.lastStreakUpdate = some t → t ≤ 86400200 := by
    intro t ht
    have : t = 3600000 := by simpa [streakOfThree] using ht.symm
    subst this
    decide
  ⟨rfl, hclock,
    updateTaskCompletion_streak_award 0 86400200 [streakOfThree] 1 streakOfThree .todo true rfl
      hclock⟩

/-- C4: the code at the failing input. The record `threeOfFour` carries gratitude, pomodoro
and journal from Day 1 and was last active on Day 1; the single call
`updateTaskCompletion(1, todo, true)` at 08:00 of Day 2 raises the streak from 0 to 1,
although only todo was marked on Day 2. -/
theorem day2_single_call_awards_streak :
    setHours0 0 threeOfFour.lastActive < setHours0 0 115200000 ∧
    threeOfFour.streak = 0 ∧
    (updateTaskCompletion 0 115200000 [threeOfFour] 1 .todo true).2 = some
      { completedTasks := { gratitude := true, pomodoro := true, todo := true, journal := true }
        progress := 100, streak := 1, allTasksCompleted := true } ∧
    (stored (updateTaskCompletion 0 115200000 [threeOfFour] 1 .todo true).1 1).map
      (fun u => (u.streak, u.lastStreakUpdate)) = some (1, some 115200000) := by
  have h : stored [threeOfFour] 1 = some threeOfFour := rfl
  refine ⟨by decide, rfl, ?_, ?_⟩
  · rw [updateTaskCompletion_result 0 115200000 .todo true h]
    simp [awards, threeOfFour, CompletedTasks.set, CompletedTasks.values]
  · rw [updateTaskCompletion_stored 0 115200000 .todo true h]
    simp [awards, threeOfFour, CompletedTasks.set, CompletedTasks.values]

/-- C5: when all four flags are true and the streak has already been awarded today,
`updateTaskCompletion(userId, kind, false)` leaves streak and `lastStreakUpdate` unchanged,
lowers progress to 75 and returns `allTasksCompleted = false`. -/
theorem updateTaskCompletion_untick_keeps_streak (tz now : Int) (db : Users) (userId : Nat)
    (u : User) (taskType : TaskType) (t : Int) (h : stored db userId = some u)
    (hall : u.completedTasks =
      { gratitude := true, pomodoro := true, todo := true, journal := true })
    (hlsu : u.lastStreakUpdate = some t) (htoday : setHours0 tz t = setHours0 tz now) :
    ∃ r u', (updateTaskCompletion tz now db userId taskType false).2 = some r ∧
      stored (updateTaskCompletion tz now db userId taskType false).1 userId = some u' ∧
      u'.streak = u.streak ∧ u'.lastStreakUpdate = u.lastStreakUpdate ∧
      u'.progress = 75 ∧ r.progress = 75 ∧ r.streak = u.streak ∧
      r.allTasksCompleted = false := by
  refine ⟨_, _, updateTaskCompletion_result tz now taskType false h,
    updateTaskCompletion_stored tz now taskType false h, ?_⟩
  have ha : awards tz now u taskType false = false := by
    simp [awards, hlsu, htoday]
  simp only [ha, hall]
  cases taskType <;> simp [CompletedTasks.set, CompletedTasks.values] <;> norm_num

theorem updateTaskCompletion_untick_keeps_streak_witness :
    stored [awardedDay1] 1 = some awardedDay1 ∧
    awardedDay1.completedTasks =
      { gratitude := true, pomodoro := true, todo := true, journal := true } ∧
    awardedDay1.lastStreakUpdate = some 3600000 ∧
    setHours0 0 3600000 = setHours0 0 7200000 ∧
    ∃ r u', (updateTaskCompletion 0 7200000 [awardedDay1] 1 .journal false).2 = some r ∧
      stored (updateTaskCompletion 0 7200000 [awardedDay1] 1 .journal false).1 1 = some u' ∧
      u'.streak = awardedDay1.streak ∧ u'.lastStreakUpdate = awardedDay1.lastStreakUpdate ∧
      u'.progress = 75 ∧ r.progress = 75 ∧ r.streak = awardedDay1.streak ∧
      r.allTasksCompleted = false :=
  ⟨rfl, rfl, rfl, by decide,
    updateTaskCompletion_untick_keeps_streak 0 7200000 [awardedDay1] 1 awardedDay1 .journal
      3600000 rfl rfl rfl (by decide)⟩

/-- C6: starting from a freshly created user record, `updateTaskCompletion(u1, gratitude, true)`
returns progress 25, streak 0, `allTasksCompleted` false; after journal, pomodoro and todo
are set true in turn, the last call returns progress 100, streak 1, `allTasksCompleted` true.
This holds for any call times, in particular for calls on one day. -/
theorem fresh_user_four_tasks (tz t0 t1 t2 t3 t4 : Int) (db : Users) (newId : Nat)
    (username email hashedPassword : String)
    (hnew : (createUser t0 db newId username email hashedPassword).2 ≠ none) :
    (updateTaskCompletion tz t1 (createUser t0 db newId username email hashedPassword).1
        newId .gratitude true).2 = some
      { completedTasks :=
          { gratitude := true, pomodoro := false, todo := false, journal := false }
        progress := 25, streak := 0, allTasksCompleted := false } ∧
    (updateTaskCompletion tz t4
        (updateTaskCompletion tz t3
          (updateTaskCompletion tz t2
            (updateTaskCompletion tz t1
              (createUser t0 db newId username email hashedPassword).1
              newId .gratitude true).1
            newId .journal true).1
          newId .pomodoro true).1
        newId .todo true).2 = some
      { completedTasks := { gratitude := true, pomodoro := true, todo := true, journal := true }
        progress := 100, streak := 1, allTasksCompleted := true } := by
  have h0 := createUser_stored hnew
  have h1 := updateTaskCompletion_stored tz t1 .gratitude true h0
  have h2 := updateTaskCompletion_stored tz t2 .journal true h1
  have h3 := updateTaskCompletion_stored tz t3 .pomodoro true h2
  refine ⟨?_, ?_⟩
  · rw [updateTaskCompletion_result tz t1 .gratitude true h0]
    simp [awards, CompletedTasks.set, CompletedTasks.values]
    norm_num
  · rw [updateTaskCompletion_result tz t4 .todo true h3]
    simp [awards, CompletedTasks.set, CompletedTasks.values]

theorem fresh_user_four_tasks_witness :
    (createUser 1000 [] 1 "u1" "u1@example.org" "hash").2 ≠ none ∧
    (updateTaskCompletion 0 2000 (createUser 1000 [] 1 "u1" "u1@example.org" "hash").1
        1 .gratitude true).2 = some
      { completedTasks :=
          { gratitude := true, pomodoro := false, todo := false, journal := false }
        progress := 25, streak := 0, allTasksCompleted := false } ∧
    (updateTaskCompletion 0 5000
        (updateTaskCompletion 0 4000
          (updateTaskCompletion 0 3000
            (updateTaskCompletion 0 2000
              (createUser 1000 [] 1 "u1" "u1@example.org" "hash").1
              1 .gratitude true).1
            1 .journal true).1
          1 .pomodoro true).1
        1 .todo true).2 = some
      { completedTasks := { gratitude := true, pomodoro := true, todo := true, journal := true }
        progress := 100, streak := 1, allTasksCompleted := true } :=
  have hnew : (createUser 1000 [] 1 "u1" "u1@example.org" "hash").2 ≠ none := by
    simp [createUser]
  ⟨hnew, fresh_user_four_tasks 0 1000 2000 3000 4000 5000 [] 1 "u1" "u1@example.org" "hash" hnew⟩

/-- C7: the code at the failing input. The record `threeOfFour` was last active on Day 1; the
call `updateTaskCompletion(1, todo, false)` at 08:00 of Day 2 resets nothing: gratitude,
pomodoro and journal stay true and the progress returned and stored is 75, not 0. -/
theorem day2_call_keeps_day1_flags :
    setHours0 0 threeOfFour.lastActive < setHours0 0 115200000 ∧
    (updateTaskCompletion 0 115200000 [threeOfFour] 1 .todo false).2 = some
      { completedTasks :=
          { gratitude := true, pomodoro := true, todo := false, journal := true }
        progress := 75, streak := 0, allTasksCompleted := false } ∧
    (stored (updateTaskCompletion 0 115200000 [threeOfFour] 1 .todo false).1 1).map
      (fun u => (u.completedTasks, u.progress)) =
        some ({ gratitude := true, pomodoro := true, todo := false, journal := true }, 75) := by
  have h : stored [threeOfFour] 1 = some threeOfFour := rfl
  refine ⟨by decide, ?_, ?_⟩
  · rw [updateTaskCompletion_result 0 115200000 .todo false h]
    simp [awards, threeOfFour, CompletedTasks.set, CompletedTasks.values]
    norm_num
  · rw [updateTaskCompletion_stored 0 115200000 .todo false h]
    simp [awards, threeOfFour, CompletedTasks.set, CompletedTasks.values]
    norm_num

/-! ## Claims about checkAndUpdateStreak -/

/-- C8: the code at the failing input. Day 1 ended with all four flags true and streak 1
(`awardedDay1`); the first `checkAndUpdateStreak` at 08:00 of Day 2 stores all-false flags,
progress 0 and streak 1, but returns the values of the document loaded before the reset:
all four flags true, progress 100 and `allTasksCompleted` true. -/
theorem day2_first_read_returns_day1_values :
    (checkAndUpdateStreak 0 115200000 [awardedDay1] 1).2 = some
      { streak := 1, progress := 100,
        completedTasks := { gratitude := true, pomodoro := true, todo := true, journal := true },
        allTasksCompleted := true } ∧
    stored (checkAndUpdateStreak 0 115200000 [awardedDay1] 1).1 1 = some
      { awardedDay1 with
        completedTasks :=
          { gratitude := false, pomodoro := false, todo := false, journal := false }
        progress := 0, lastActive := 115200000 } := by
  have h : stored [awardedDay1] 1 = some awardedDay1 := rfl
  exact checkAndUpdateStreak_kept 0 115200000 (t := 3600000) h (by decide) (by decide) rfl
    (by decide)

/-- C9: streak break on a skipped day. If the streak was awarded on Day 1, the record was last
active on Day 1 and nothing happened on Day 2, the first `checkAndUpdateStreak` on Day 3
returns and stores streak 0, with `lastStreakUpdate` null (for any flags and any streak
value, in particular all four flags true and streak 1). -/
theorem streak_break_skipped_day (tz now : Int) (db : Users) (userId : Nat) (u : User) (t : Int)
    (h : stored db userId = some u)
    (hl : u.lastStreakUpdate = some t)
    (hday1 : setHours0 tz t = setHours0 tz u.lastActive)
    (hday3 : setHours0 tz now = setHours0 tz u.lastActive + 2 * msPerDay) :
    ∃ r u', (checkAndUpdateStreak tz now db userId).2 = some r ∧
      stored (checkAndUpdateStreak tz now db userId).1 userId = some u' ∧
      r.streak = 0 ∧ u'.streak = 0 ∧ u'.lastStreakUpdate = none := by
  have hnew : setHours0 tz u.lastActive < setHours0 tz now := by
    rw [hday3]; simp only [msPerDay]; omega
  have hbreak : 1 < (now - u.lastActive) / msPerDay ∨
      ∀ t', u.lastStreakUpdate = some t' → setHours0 tz t' ≠ setHours0 tz now - msPerDay := by
    right
    intro t' ht'
    rw [hl] at ht'
    cases ht'
    rw [hday1, hday3]
    simp only [msPerDay]
    omega
  obtain ⟨hr, hs⟩ := checkAndUpdateStreak_broken tz now h hnew hbreak
  exact ⟨_, _, hr, hs, rfl, rfl, rfl⟩

theorem streak_break_skipped_day_witness :
    stored [awardedDay1] 1 = some awardedDay1 ∧
    awardedDay1.lastStreakUpdate = some 3600000 ∧
    setHours0 0 3600000 = setHours0 0 awardedDay1.lastActive ∧
    setHours0 0 180000000 = setHours0 0 awardedDay1.lastActive + 2 * msPerDay ∧
    ∃ r u', (checkAndUpdateStreak 0 180000000 [awardedDay1] 1).2 = some r ∧
      stored (checkAndUpdateStreak 0 180000000 [awardedDay1] 1).1 1 = some u' ∧
      r.streak = 0 ∧ u'.streak = 0 ∧ u'.lastStreakUpdate = none :=
  ⟨rfl, rfl, by decide, by decide,
    streak_break_skipped_day 0 180000000 [awardedDay1] 1 awardedDay1 3600000 rfl rfl
      (by decide) (by decide)⟩

/-- C10: streak break on an incomplete day. For every prior streak value, if Day 1 ended with
only three of the four flags true and no streak was awarded on Day 1, the first
`checkAndUpdateStreak` on Day 2 returns and stores streak 0 and all-false `completedTasks`. -/
theorem streak_break_incomplete_day (tz now : Int) (db : Users) (userId : Nat) (u : User)
    (h : stored db userId = some u)
    (_hthree : u.completedTasks.values.count true = 3)
    (hno : ∀ t, u.lastStreakUpdate = some t → setHours0 tz t ≠ setHours0 tz u.lastActive)
    (hday2 : setHours0 tz now = setHours0 tz u.lastActive + msPerDay) :
    ∃ r u', (checkAndUpdateStreak tz now db userId).2 = some r ∧
      stored (checkAndUpdateStreak tz now db userId).1 userId = some u' ∧
      r.streak = 0 ∧
      r.completedTasks =
        { gratitude := false, pomodoro := false, todo := false, journal := false } ∧
      u'.streak = 0 ∧
      u'.completedTasks =
        { gratitude := false, pomodoro := false, todo := false, journal := false } := by
  have hnew : setHours0 tz u.lastActive < setHours0 tz now := by
    rw [hday2]; simp only [msPerDay]; omega
  have hbreak : 1 < (now - u.lastActive) / msPerDay ∨
      ∀ t, u.lastStreakUpdate = some t → setHours0 tz t ≠ setHours0 tz now - msPerDay := by
    right
    intro t ht
    have := hno t ht
    rw [hday2]
    simpa using this
  obtain ⟨hr, hs⟩ := checkAndUpdateStreak_broken tz now h hnew hbreak
  exact ⟨_, _, hr, hs, rfl, rfl, rfl, rfl⟩

theorem streak_break_incomplete_day_witness :
    stored [streakOfThree] 1 = some streakOfThree ∧
    streakOfThree.completedTasks.values.count true = 3 ∧
    (∀ t, streakOfThree.lastStreakUpdate = some t →
      setHours0 0 t ≠ setHours0 0 streakOfThree.lastActive) ∧
    setHours0 0 172801000 = setHours0 0 streakOfThree.lastActive + msPerDay ∧
    ∃ r u', (checkAndUpdateStreak 0 172801000 [streakOfThree] 1).2 = some r ∧
      stored (checkAndUpdateStreak 0 172801000 [streakOfThree] 1).1 1 = some u' ∧
      r.streak = 0 ∧
      r.completedTasks =
        { gratitude := false, pomodoro := false, todo := false, journal := false } ∧
      u'.streak = 0 ∧
      u'.completedTasks =
        { gratitude := false, pomodoro := false, todo := false, journal := false } :=
  have hno : ∀ t, streakOfThree.lastStreakUpdate = some t →
      setHours0 0 t ≠ setHours0 0 streakOfThree.lastActive := by
    intro t ht
    have : t = 3600000 := by simpa [streakOfThree] using ht.symm
    subst this
    decide
  ⟨rfl, by decide, hno, by decide,
    streak_break_incomplete_day 0 172801000 [streakOfThree] 1 streakOfThree rfl (by decide) hno
      (by decide)⟩

/-! ## checkAndUpdateStreak and resetDailyProgress: remaining cases -/

/-- Same day: the value returned and the record stored by `checkAndUpdateStreak`. -/
theorem checkAndUpdateStreak_sameDay (tz now : Int) {db : Users} {userId : Nat} {u : User}
    (h : stored db userId = some u)
    (hday : ¬ setHours0 tz u.lastActive < setHours0 tz now) :
    (checkAndUpdateStreak tz now db userId).2 = some
        { streak := u.streak, progress := u.progress, completedTasks := u.completedTasks,
          allTasksCompleted := u.completedTasks.values.all id } ∧
      stored (checkAndUpdateStreak tz now db userId).1 userId = some
        { u with lastActive := now } := by
  unfold checkAndUpdateStreak
  rw [findById_of_stored h]
  simp only [hday, if_false]
  refine ⟨rfl, ?_⟩
  rw [stored_save_inSync h (inSync_setLastActive (inSync_fresh u) now)]
  rfl

/-- The value returned by `resetDailyProgress` for an existing user. -/
theorem resetDailyProgress_result {db : Users} {userId : Nat} {u : User}
    (h : stored db userId = some u) :
    (resetDailyProgress db userId).2 = some
      { completedTasks :=
          { gratitude := false, pomodoro := false, todo := false, journal := false }
        progress := 0, streak := u.streak } := by
  unfold resetDailyProgress
  rw [findById_of_stored h]
  rfl

/-- New day: whichever branch runs, `checkAndUpdateStreak` stores all-false flags and
progress 0, and the stored streak is either reset or the one before. -/
theorem checkAndUpdateStreak_newDay (tz now : Int) {db : Users} {userId : Nat}
    {u : User} (h : stored db userId = some u)
    (hnew : setHours0 tz u.lastActive < setHours0 tz now) :
    ∃ u', stored (checkAndUpdateStreak tz now db userId).1 userId = some u' ∧
      u'.completedTasks =
        { gratitude := false, pomodoro := false, todo := false, journal := false } ∧
      u'.progress = 0 ∧
      (u'.streak = 0 ∨ u'.streak = u.streak) := by
  by_cases hd : 1 < (now - u.lastActive) / msPerDay
  · obtain ⟨-, hs⟩ := checkAndUpdateStreak_broken tz now h hnew (Or.inl hd)
    exact ⟨_, hs, rfl, rfl, Or.inl rfl⟩
  · cases hl : u.lastStreakUpdate with
    | none =>
      obtain ⟨-, hs⟩ := checkAndUpdateStreak_broken tz now h hnew
        (Or.inr (fun t ht => by rw [hl] at ht; cases ht))
      exact ⟨_, hs, rfl, rfl, Or.inl rfl⟩
    | some t =>
      by_cases hy : setHours0 tz t = setHours0 tz now - msPerDay
      · obtain ⟨-, hs⟩ := checkAndUpdateStreak_kept tz now h hnew (not_lt.mp hd) hl hy
        exact ⟨_, hs, rfl, rfl, Or.inr rfl⟩
      · obtain ⟨-, hs⟩ := checkAndUpdateStreak_broken tz now h hnew
          (Or.inr (fun t' ht' => by rw [hl] at ht'; cases ht'; exact hy))
        exact ⟨_, hs, rfl, rfl, Or.inl rfl⟩

/-! ## Missing users and other users -/

theorem updateTaskCompletion_missing (tz now : Int) {db : Users} {userId : Nat}
    (taskType : TaskType) (isCompleted : Bool) (h : stored db userId = none) :
    updateTaskCompletion tz now db userId taskType isCompleted = (db, none) := by
  simp [updateTaskCompletion, findById, h]

theorem checkAndUpdateStreak_missing (tz now : Int) {db : Users} {userId : Nat}
    (h : stored db userId = none) :
    checkAndUpdateStreak tz now db userId = (db, none) := by
  simp [checkAndUpdateStreak, findById, h]

theorem ofString?_mem {taskType : String} {kind : TaskType}
    (h : TaskType.ofString? taskType = some kind) :
    taskType ∈ ["gratitude", "pomodoro", "todo", "journal"] := by
  unfold TaskType.ofString? at h
  split_ifs at h with h1 h2 h3 h4 <;> simp_all

theorem stored_save_other {db : Users} {d : UserDoc} {userId : Nat} (h : d.cur._id ≠ userId) :
    stored (save db d) userId = stored db userId := by
  rw [stored_save]
  cases hs : stored db userId with
  | none => rfl
  | some u =>
    have hid := stored_id hs
    have hne : ¬ u._id = d.cur._id := fun he => h (he ▸ hid)
    simp [hne]

theorem updateTaskCompletion_other (tz now : Int) (db : Users) {userId other : Nat}
    (taskType : TaskType) (isCompleted : Bool) (hne : other ≠ userId) :
    stored (updateTaskCompletion tz now db other taskType isCompleted).1 userId =
      stored db userId := by
  cases h : stored db other with
  | none => rw [updateTaskCompletion_missing tz now taskType isCompleted h]
  | some u =>
    have hid : u._id ≠ userId := by rw [stored_id h]; exact hne
    unfold updateTaskCompletion
    rw [findById_of_stored h]
    simp only
    split_ifs <;> exact stored_save_other hid

theorem resetDailyProgress_other (db : Users) {userId other : Nat} (hne : other ≠ userId) :
    stored (resetDailyProgress db other).1 userId = stored db userId := by
  cases h : stored db other with
  | none => simp [resetDailyProgress, findById, h]
  | some u =>
    have hid : u._id ≠ userId := by rw [stored_id h]; exact hne
    unfold resetDailyProgress
    rw [findById_of_stored h]
    exact stored_save_other hid

theorem checkAndUpdateStreak_other (tz now : Int) (db : Users) {userId other : Nat}
    (hne : other ≠ userId) :
    stored (checkAndUpdateStreak tz now db other).1 userId = stored db userId := by
  cases h : stored db other with
  | none => rw [checkAndUpdateStreak_missing tz now h]
  | some u =>
    have hid : u._id ≠ userId := by rw [stored_id h]; exact hne
    unfold checkAndUpdateStreak
    rw [findById_of_stored h]
    simp only
    split_ifs
    · exact (stored_save_other hid).trans (resetDailyProgress_other db hne)
    · exact (stored_save_other hid).trans (resetDailyProgress_other db hne)
    · exact stored_save_other hid

theorem progress_formula (c : CompletedTasks) :
    (((c.values.filter id).length : ℚ) / 4) * 100 = 25 * (c.values.count true : ℚ) := by
  obtain ⟨g, p, t, j⟩ := c
  cases g <;> cases p <;> cases t <;> cases j <;>
    simp [CompletedTasks.values] <;> norm_num

/-- One call of a progress method keeps the stored progress of a user equal to 25 times the
number of true flags. -/
theorem apply_keeps_progress (tz : Int) (op : ProgressOp) (db : Users) (userId : Nat) (u : User)
    (h : stored db userId = some u)
    (hinv : u.progress = 25 * (u.completedTasks.values.count true : ℚ)) :
    ∃ u', stored (op.apply tz db) userId = some u' ∧
      u'.progress = 25 * (u'.completedTasks.values.count true : ℚ) := by
  cases op with
  | updateTask now other taskType isCompleted =>
    by_cases hne : other = userId
    · subst hne
      exact ⟨_, updateTaskCompletion_stored tz now taskType isCompleted h, progress_formula _⟩
    · exact ⟨u, (updateTaskCompletion_other tz now db taskType isCompleted hne).trans h, hinv⟩
  | resetDaily other =>
    by_cases hne : other = userId
    · subst hne
      exact ⟨_, resetDailyProgress_stored h, by simp [CompletedTasks.values]⟩
    · exact ⟨u, (resetDailyProgress_other db hne).trans h, hinv⟩
  | checkStreak now other =>
    by_cases hne : other = userId
    · subst hne
      by_cases hnew : setHours0 tz u.lastActive < setHours0 tz now
      · obtain ⟨u', hs, hc, hp, -⟩ :=
          checkAndUpdateStreak_newDay tz now h hnew
        exact ⟨u', hs, by rw [hp, hc]; simp [CompletedTasks.values]⟩
      · exact ⟨_, (checkAndUpdateStreak_sameDay tz now h hnew).2, hinv⟩
    · exact ⟨u, (checkAndUpdateStreak_other tz now db hne).trans h, hinv⟩

/-! ## checkTodoCompletion -/

theorem checkTodoCompletion_todos (tz now : Int) (s : Store) (userId : Nat) :
    (checkTodoCompletion tz now s userId).1.todos = s.todos := by
  unfold checkTodoCompletion
  simp only
  split_ifs <;> rfl

/-- The todo flag stored by `checkTodoCompletion` for an existing user is the value it
returns, which is true exactly for a non-empty list of completed items. -/
theorem checkTodoCompletion_flag (tz now : Int) {s : Store} {userId : Nat} {u : User}
    (h : stored s.users userId = some u) :
    ∃ u', stored (checkTodoCompletion tz now s userId).1.users userId = some u' ∧
      u'.completedTasks.todo = (checkTodoCompletion tz now s userId).2 ∧
      ((checkTodoCompletion tz now s userId).2 = true ↔
        (todoItemsOf s userId ≠ [] ∧ ∀ item ∈ todoItemsOf s userId, item.completed = true)) := by
  unfold checkTodoCompletion
  simp only
  by_cases hlen : (todoItemsOf s userId).length = 0
  · have hnil : todoItemsOf s userId = [] := List.length_eq_zero.mp hlen
    simp only [hlen, if_true]
    exact ⟨_, updateTaskCompletion_stored tz now .todo false h, rfl, by simp [hnil]⟩
  · have hne : todoItemsOf s userId ≠ [] := fun he => hlen (by rw [he]; rfl)
    simp only [hlen, if_false]
    exact ⟨_, updateTaskCompletion_stored tz now .todo _ h, rfl, by simp [hne]⟩

/-! ## Claims about reconciliation and reset -/

/-- C11: for a record whose `lastActive` is on a calendar day earlier than today, after
`checkAndUpdateStreak` the stored `completedTasks` are all false and the stored progress is
0, whether the streak was reset or survived: the later save of the document loaded before
the reset writes only its modified paths and does not restore the old flags. -/
theorem checkAndUpdateStreak_newDay_resets_tasks (tz now : Int) (db : Users) (userId : Nat)
    (u : User) (h : stored db userId = some u)
    (hnew : setHours0 tz u.lastActive < setHours0 tz now) :
    ∃ u', stored (checkAndUpdateStreak tz now db userId).1 userId = some u' ∧
      u'.completedTasks =
        { gratitude := false, pomodoro := false, todo := false, journal := false } ∧
      u'.progress = 0 ∧
      (u'.streak = 0 ∨ u'.streak = u.streak) :=
  checkAndUpdateStreak_newDay tz now h hnew

theorem checkAndUpdateStreak_newDay_resets_tasks_witness :
    stored [awardedDay1] 1 = some awardedDay1 ∧
    setHours0 0 awardedDay1.lastActive < setHours0 0 115200000 ∧
    ∃ u', stored (checkAndUpdateStreak 0 115200000 [awardedDay1] 1).1 1 = some u' ∧
      u'.completedTasks =
        { gratitude := false, pomodoro := false, todo := false, journal := false } ∧
      u'.progress = 0 ∧
      (u'.streak = 0 ∨ u'.streak = awardedDay1.streak) :=
  ⟨rfl, by decide,
    checkAndUpdateStreak_newDay_resets_tasks 0 115200000 [awardedDay1] 1 awardedDay1 rfl
      (by decide)⟩

/-- C12: the code at the failing input. For `awardedDay1` read on Day 3 the streak-reset
branch runs and returns before `user.lastActive = now`: the stored streak becomes 0 but the
stored `lastActive` is still 01:00 of Day 1, not the time of the call. -/
theorem streak_reset_leaves_lastActive :
    setHours0 0 awardedDay1.lastActive < setHours0 0 180000000 ∧
    (stored (checkAndUpdateStreak 0 180000000 [awardedDay1] 1).1 1).map
      (fun u => (u.lastActive, u.streak)) = some (3600000, 0) := by
  have h : stored [awardedDay1] 1 = some awardedDay1 := rfl
  have hb := (checkAndUpdateStreak_broken 0 180000000 h (by decide) (Or.inl (by decide))).2
  exact ⟨by decide, by rw [hb]; rfl⟩

/-- C13: the code at the failing input. For `awardedDay1`, two calls of
`checkAndUpdateStreak` one millisecond apart on Day 2: the first returns the flags and
progress loaded before the reset (all true, 100, `allTasksCompleted` true), the second
returns the stored ones (all false, 0, false). -/
theorem second_read_differs_from_first :
    (checkAndUpdateStreak 0 115200000 [awardedDay1] 1).2 = some
      { streak := 1, progress := 100,
        completedTasks := { gratitude := true, pomodoro := true, todo := true, journal := true },
        allTasksCompleted := true } ∧
    (checkAndUpdateStreak 0 115200001 (checkAndUpdateStreak 0 115200000 [awardedDay1] 1).1 1).2 =
      some
      { streak := 1, progress := 0,
        completedTasks :=
          { gratitude := false, pomodoro := false, todo := false, journal := false },
        allTasksCompleted := false } := by
  have h : stored [awardedDay1] 1 = some awardedDay1 := rfl
  obtain ⟨hr, hs⟩ := checkAndUpdateStreak_kept 0 115200000 (t := 3600000) h (by decide)
    (by decide) rfl (by decide)
  refine ⟨hr, ?_⟩
  have h2 := (checkAndUpdateStreak_sameDay 0 115200001 hs (by decide)).1
  rw [h2]
  rfl

/-- C14: for a record whose `lastActive` is on today's calendar day, `checkAndUpdateStreak`
changes no field other than `lastActive` (streak, `completedTasks`, progress and
`lastStreakUpdate` are unchanged), and the returned values equal the stored ones. -/
theorem checkAndUpdateStreak_sameDay_frame (tz now : Int) (db : Users) (userId : Nat) (u : User)
    (h : stored db userId = some u)
    (htoday : setHours0 tz u.lastActive = setHours0 tz now) :
    ∃ r u', (checkAndUpdateStreak tz now db userId).2 = some r ∧
      stored (checkAndUpdateStreak tz now db userId).1 userId = some u' ∧
      u' = { u with lastActive := now } ∧
      r.streak = u'.streak ∧ r.progress = u'.progress ∧
      r.completedTasks = u'.completedTasks ∧
      (r.allTasksCompleted = true ↔
        u'.completedTasks =
          { gratitude := true, pomodoro := true, todo := true, journal := true }) := by
  obtain ⟨hr, hs⟩ := checkAndUpdateStreak_sameDay tz now h (by rw [htoday]; exact lt_irrefl _)
  exact ⟨_, _, hr, hs, rfl, rfl, rfl, rfl, all_values_iff _⟩

theorem checkAndUpdateStreak_sameDay_frame_witness :
    stored [threeOfFour] 1 = some threeOfFour ∧
    setHours0 0 threeOfFour.lastActive = setHours0 0 7200000 ∧
    ∃ r u', (checkAndUpdateStreak 0 7200000 [threeOfFour] 1).2 = some r ∧
      stored (checkAndUpdateStreak 0 7200000 [threeOfFour] 1).1 1 = some u' ∧
      u' = { threeOfFour with lastActive := 7200000 } ∧
      r.streak = u'.streak ∧ r.progress = u'.progress ∧
      r.completedTasks = u'.completedTasks ∧
      (r.allTasksCompleted = true ↔
        u'.completedTasks =
          { gratitude := true, pomodoro := true, todo := true, journal := true }) :=
  ⟨rfl, by decide,
    checkAndUpdateStreak_sameDay_frame 0 7200000 [threeOfFour] 1 threeOfFour rfl (by decide)⟩

/-- C15: for an existing record, `resetDailyProgress` sets all four flags to false and
progress to 0, leaves every other field (streak, `lastActive`, `lastStreakUpdate`) unchanged,
and is idempotent: a second application stores the same record and returns the same value. -/
theorem resetDailyProgress_idempotent (db : Users) (userId : Nat) (u : User)
    (h : stored db userId = some u) :
    ∃ r u', (resetDailyProgress db userId).2 = some r ∧
      stored (resetDailyProgress db userId).1 userId = some u' ∧
      u' = { u with
        completedTasks :=
          { gratitude := false, pomodoro := false, todo := false, journal := false }
        progress := 0 } ∧
      r = { completedTasks := u'.completedTasks, progress := u'.progress, streak := u.streak } ∧
      stored (resetDailyProgress (resetDailyProgress db userId).1 userId).1 userId = some u' ∧
      (resetDailyProgress (resetDailyProgress db userId).1 userId).2 = some r := by
  have h1 := resetDailyProgress_stored h
  refine ⟨_, _, resetDailyProgress_result h, h1, rfl, rfl, ?_, ?_⟩
  · rw [resetDailyProgress_stored h1]
  · rw [resetDailyProgress_result h1]

theorem resetDailyProgress_idempotent_witness :
    stored [threeOfFour] 1 = some threeOfFour ∧
    ∃ r u', (resetDailyProgress [threeOfFour] 1).2 = some r ∧
      stored (resetDailyProgress [threeOfFour] 1).1 1 = some u' ∧
      u' = { threeOfFour with
        completedTasks :=
          { gratitude := false, pomodoro := false, todo := false, journal := false }
        progress := 0 } ∧
      r = { completedTasks := u'.completedTasks, progress := u'.progress,
            streak := threeOfFour.streak } ∧
      stored (resetDailyProgress (resetDailyProgress [threeOfFour] 1).1 1).1 1 = some u' ∧
      (resetDailyProgress (resetDailyProgress [threeOfFour] 1).1 1).2 = some r :=
  ⟨rfl, resetDailyProgress_idempotent [threeOfFour] 1 threeOfFour rfl⟩

/-! ## Claims about invalid input, missing users and producers -/

/-- C16: for every `taskType` string outside gratitude, pomodoro, todo and journal,
`POST /api/progress/:taskType` answers 400 "Invalid task type"; the answer is the same for
every store and the store is returned as it was, so no record is read or written. -/
theorem postProgressTaskType_invalid (tz now : Int) (db : Users) (userId : Nat)
    (taskType : String) (completed : Bool)
    (h : taskType ∉ ["gratitude", "pomodoro", "todo", "journal"]) :
    postProgressTaskType tz now db userId taskType completed =
      (db, { status := 400, body := .error "Invalid task type" }) := by
  unfold postProgressTaskType
  have hc : ["gratitude", "pomodoro", "todo", "journal"].contains taskType = false := by
    simpa using h
  simp only [hc, Bool.false_eq_true, not_false_eq_true, if_true]

theorem postProgressTaskType_invalid_witness :
    "invalid_kind" ∉ ["gratitude", "pomodoro", "todo", "journal"] ∧
    postProgressTaskType 0 7200000 [threeOfFour] 1 "invalid_kind" true =
      ([threeOfFour], { status := 400, body := .error "Invalid task type" }) :=
  ⟨by decide, postProgressTaskType_invalid 0 7200000 [threeOfFour] 1 "invalid_kind" true
    (by decide)⟩

/-- C17, as stated, fails: for user 7 with no stored record, `updateTaskCompletion` and
`checkAndUpdateStreak` return null and leave the (empty) collection without any record, and
`GET /api/progress` answers 404 "User not found". -/
theorem missing_user_is_not_initialised :
    updateTaskCompletion 0 7200000 [] 7 .gratitude true = ([], none) ∧
    checkAndUpdateStreak 0 7200000 [] 7 = ([], none) ∧
    getProgress 0 7200000 [] 7 = ([], { status := 404, body := .error "User not found" }) := by
  refine ⟨rfl, rfl, rfl⟩

/-- C17, amended: for a `userId` with no stored record no zero record is created. The
progress methods `updateTaskCompletion`, `checkAndUpdateStreak` and `resetDailyProgress`
return null and leave the store unchanged; `GET /api/progress` answers 404 "User not found"
and `POST /api/progress/:taskType` with a valid kind answers 500. -/
theorem missing_user_returns_null (tz now : Int) (db : Users) (userId : Nat)
    (h : stored db userId = none) :
    (∀ taskType isCompleted,
      updateTaskCompletion tz now db userId taskType isCompleted = (db, none)) ∧
    checkAndUpdateStreak tz now db userId = (db, none) ∧
    resetDailyProgress db userId = (db, none) ∧
    getProgress tz now db userId = (db, { status := 404, body := .error "User not found" }) ∧
    (∀ taskType kind completed, TaskType.ofString? taskType = some kind →
      postProgressTaskType tz now db userId taskType completed =
        (db, { status := 500, body := .error "Failed to update task completion" })) := by
  refine ⟨fun k b => updateTaskCompletion_missing tz now k b h,
    checkAndUpdateStreak_missing tz now h, ?_, ?_, ?_⟩
  · simp [resetDailyProgress, findById, h]
  · simp [getProgress, getUser, h]
  · intro taskType kind completed hk
    have hm := ofString?_mem hk
    have hc : ["gratitude", "pomodoro", "todo", "journal"].contains taskType = true := by
      simpa using hm
    unfold postProgressTaskType
    simp only [hc, not_true_eq_false, if_false, hk, updateTaskCompletion_missing tz now kind completed h]

theorem missing_user_returns_null_witness :
    stored [threeOfFour] 7 = none ∧
    ((∀ taskType isCompleted,
      updateTaskCompletion 0 7200000 [threeOfFour] 7 taskType isCompleted =
        ([threeOfFour], none)) ∧
    checkAndUpdateStreak 0 7200000 [threeOfFour] 7 = ([threeOfFour], none) ∧
    resetDailyProgress [threeOfFour] 7 = ([threeOfFour], none) ∧
    getProgress 0 7200000 [threeOfFour] 7 =
      ([threeOfFour], { status := 404, body := .error "User not found" }) ∧
    (∀ taskType kind completed, TaskType.ofString? taskType = some kind →
      postProgressTaskType 0 7200000 [threeOfFour] 7 taskType completed =
        ([threeOfFour], { status := 500, body := .error "Failed to update task completion" }))) :=
  ⟨rfl, missing_user_returns_null 0 7200000 [threeOfFour] 7 rfl⟩

/-- C18: the code at the failing input. In `orphanStore` user 7 has no record, so every
inner `updateTaskCompletion` returns null; `createGratitudeEntry`, `createJournalEntry` and
`createPomodoroSession` still return the saved entry and `checkTodoCompletion` still returns
true. -/
theorem producers_report_success_after_failed_update :
    (updateTaskCompletion 0 7200000 orphanStore.users 7 .gratitude true).2 = none ∧
    (createGratitudeEntry 0 7200000 orphanStore 60 7 ["sun"]).2 =
      some { _id := 60, userId := 7, entries := ["sun"], date := 7200000 } ∧
    (updateTaskCompletion 0 7200000 orphanStore.users 7 .journal true).2 = none ∧
    (createJournalEntry 0 7200000 orphanStore 61 7 "day" "notes").2 =
      some { _id := 61, userId := 7, title := "day", content := "notes", date := 7200000 } ∧
    (updateTaskCompletion 0 7200000 orphanStore.users 7 .pomodoro true).2 = none ∧
    (createPomodoroSession 0 7200000 orphanStore 62 7 .beginner 1 false).2 =
      some { _id := 62, userId := 7, type := .beginner, completedCycles := 1, isBreak := false,
             date := 7200000 } ∧
    (updateTaskCompletion 0 7200000 orphanStore.users 7 .todo true).2 = none ∧
    (checkTodoCompletion 0 7200000 orphanStore 7).2 = true := by
  refine ⟨rfl, rfl, rfl, ?_, rfl, rfl, rfl, ?_⟩
  · simp [createJournalEntry]
  · simp [checkTodoCompletion, todoItemsOf, orphanStore]

/-! ## Claims about drift and the todo flag -/

/-- C19: no drift. In every record reachable from `createUser` by any sequence of
`updateTaskCompletion`, `resetDailyProgress` and `checkAndUpdateStreak` calls (on this or any
other user), the stored progress equals 25 times the number of true flags of the stored
`completedTasks`. -/
theorem no_drift (tz t0 : Int) (db : Users) (newId : Nat)
    (username email hashedPassword : String) (ops : List ProgressOp)
    (hnew : (createUser t0 db newId username email hashedPassword).2 ≠ none) :
    ∃ u, stored (runOps tz (createUser t0 db newId username email hashedPassword).1 ops) newId =
        some u ∧
      u.progress = 25 * (u.completedTasks.values.count true : ℚ) := by
  have h0 := createUser_stored hnew
  have key : ∀ (ops : List ProgressOp) (db' : Users) (u : User), stored db' newId = some u →
      u.progress = 25 * (u.completedTasks.values.count true : ℚ) →
      ∃ u', stored (runOps tz db' ops) newId = some u' ∧
        u'.progress = 25 * (u'.completedTasks.values.count true : ℚ) := by
    intro ops
    induction ops with
    | nil => intro db' u h hinv; exact ⟨u, h, hinv⟩
    | cons op rest ih =>
      intro db' u h hinv
      obtain ⟨u1, h1, hinv1⟩ := apply_keeps_progress tz op db' newId u h hinv
      exact ih _ u1 h1 hinv1
  exact key ops _ _ h0 (by simp [CompletedTasks.values])

theorem no_drift_witness :
    (createUser 1000 [] 1 "u1" "u1@example.org" "hash").2 ≠ none ∧
    ∃ u, stored (runOps 0 (createUser 1000 [] 1 "u1" "u1@example.org" "hash").1 sampleOps) 1 =
        some u ∧
      u.progress = 25 * (u.completedTasks.values.count true : ℚ) :=
  have hnew : (createUser 1000 [] 1 "u1" "u1@example.org" "hash").2 ≠ none := by
    simp [createUser]
  ⟨hnew, no_drift 0 1000 [] 1 "u1" "u1@example.org" "hash" sampleOps hnew⟩

/-- C20: for an existing user, `checkTodoCompletion` sets the todo flag to the boolean it
returns, which is true if and only if the user's todo list is non-empty and every item in it
is completed; and after each todo mutation (`createTodoItem`, `updateTodoItem`,
`deleteTodoItem`) the stored todo flag is true if and only if the list left by the mutation
is non-empty with every item completed. -/
theorem todo_flag_tracks_list (tz now : Int) (s : Store) (userId : Nat) (u : User)
    (h : stored s.users userId = some u) :
    (∃ u', stored (checkTodoCompletion tz now s userId).1.users userId = some u' ∧
      u'.completedTasks.todo = (checkTodoCompletion tz now s userId).2 ∧
      ((checkTodoCompletion tz now s userId).2 = true ↔
        (todoItemsOf s userId ≠ [] ∧ ∀ item ∈ todoItemsOf s userId, item.completed = true))) ∧
    (∀ newId text, text ≠ "" →
      ∃ u', stored (createTodoItem tz now s newId userId text).1.users userId = some u' ∧
        (u'.completedTasks.todo = true ↔
          (todoItemsOf (createTodoItem tz now s newId userId text).1 userId ≠ [] ∧
            ∀ item ∈ todoItemsOf (createTodoItem tz now s newId userId text).1 userId,
              item.completed = true))) ∧
    (∀ itemId text completed,
      ∃ u', stored (updateTodoItem tz now s userId itemId text completed).1.users userId =
          some u' ∧
        (u'.completedTasks.todo = true ↔
          (todoItemsOf (updateTodoItem tz now s userId itemId text completed).1 userId ≠ [] ∧
            ∀ item ∈ todoItemsOf (updateTodoItem tz now s userId itemId text completed).1 userId,
              item.completed = true))) ∧
    (∀ itemId,
      ∃ u', stored (deleteTodoItem tz now s userId itemId).users userId = some u' ∧
        (u'.completedTasks.todo = true ↔
          (todoItemsOf (deleteTodoItem tz now s userId itemId) userId ≠ [] ∧
            ∀ item ∈ todoItemsOf (deleteTodoItem tz now s userId itemId) userId,
              item.completed = true))) := by
  have after : ∀ (s' : Store), s'.users = s.users →
      ∃ u', stored (checkTodoCompletion tz now s' userId).1.users userId = some u' ∧
        (u'.completedTasks.todo = true ↔
          (todoItemsOf (checkTodoCompletion tz now s' userId).1 userId ≠ [] ∧
            ∀ item ∈ todoItemsOf (checkTodoCompletion tz now s' userId).1 userId,
              item.completed = true)) := by
    intro s' hu
    obtain ⟨u', hs, hf, hiff⟩ := checkTodoCompletion_flag tz now (s := s') (by rw [hu]; exact h)
    refine ⟨u', hs, ?_⟩
    have ht : todoItemsOf (checkTodoCompletion tz now s' userId).1 userId =
        todoItemsOf s' userId := by
      unfold todoItemsOf
      rw [checkTodoCompletion_todos]
    rw [ht, hf]
    exact hiff
  refine ⟨checkTodoCompletion_flag tz now h, ?_, ?_, ?_⟩
  · intro newId text htext
    unfold createTodoItem
    simp only [htext, if_false]
    exact after _ rfl
  · intro itemId text completed
    unfold updateTodoItem
    exact after _ rfl
  · intro itemId
    unfold deleteTodoItem
    exact after _ rfl

theorem todo_flag_tracks_list_witness :
    stored todoStore.users 1 = some threeOfFour ∧
    ∃ u', stored (checkTodoCompletion 0 7200000 todoStore 1).1.users 1 = some u' ∧
      u'.completedTasks.todo = (checkTodoCompletion 0 7200000 todoStore 1).2 ∧
      ((checkTodoCompletion 0 7200000 todoStore 1).2 = true ↔
        (todoItemsOf todoStore 1 ≠ [] ∧ ∀ item ∈ todoItemsOf todoStore 1, item.completed = true)) :=
  ⟨rfl, (todo_flag_tracks_list 0 7200000 todoStore 1 threeOfFour rfl).1⟩

/-! ## Pomodoro sessions, journal deletion and overlapped calls -/

theorem createPomodoroSession_flag (tz now : Int) {s : Store} {userId : Nat} {u : User}
    (newId : Nat) (kind : PomodoroType) (cycles : ℚ) (isBreak : Bool)
    (h : stored s.users userId = some u) :
    (createPomodoroSession tz now s newId userId kind cycles isBreak).2 = some
        { _id := newId, userId := userId, type := kind, completedCycles := cycles,
          isBreak := isBreak, date := now } ∧
      ∃ u', stored (createPomodoroSession tz now s newId userId kind cycles isBreak).1.users
          userId = some u' ∧ u'.completedTasks.pomodoro = true := by
  refine ⟨rfl, ?_⟩
  unfold createPomodoroSession
  exact ⟨_, updateTaskCompletion_stored tz now .pomodoro true h, rfl⟩

theorem createPomodoroSession_sessions (tz now : Int) (s : Store) (newId userId : Nat)
    (kind : PomodoroType) (cycles : ℚ) (isBreak : Bool) :
    (createPomodoroSession tz now s newId userId kind cycles isBreak).1.pomodoroSessions =
      s.pomodoroSessions ++
        [{ _id := newId, userId := userId, type := kind, completedCycles := cycles,
           isBreak := isBreak, date := now }] := rfl

theorem deleteJournalEntry_entries (tz now : Int) (s : Store) (userId entryId : Nat) :
    (deleteJournalEntry tz now s userId entryId).journalEntries =
      findOneAndDeleteJournal entryId userId s.journalEntries := by
  unfold deleteJournalEntry
  simp only
  split_ifs <;> rfl

theorem updateTaskCompletion_eq_doc (tz now : Int) (db : Users) (userId : Nat)
    (taskType : TaskType) (isCompleted : Bool) :
    updateTaskCompletion tz now db userId taskType isCompleted =
      match findById db userId with
      | none => (db, none)
      | some user =>
        (save db (updateTaskCompletionDoc tz now user taskType isCompleted).1,
          some (updateTaskCompletionDoc tz now user taskType isCompleted).2) := by
  unfold updateTaskCompletion updateTaskCompletionDoc
  cases findById db userId <;> rfl

/-- The document left by the synchronous part of `updateTaskCompletion`: the three
assignments, followed or not by the streak award. -/
theorem updateTaskCompletionDoc_fst (tz now : Int) (d : UserDoc) (taskType : TaskType)
    (isCompleted : Bool) :
    ∃ v : ℚ,
      (updateTaskCompletionDoc tz now d taskType isCompleted).1 =
          ((d.setTask taskType isCompleted).setProgress v).setLastActive now ∨
      (updateTaskCompletionDoc tz now d taskType isCompleted).1 =
          ((((d.setTask taskType isCompleted).setProgress v).setLastActive now).setStreak
            (d.cur.streak + 1)).setLastStreakUpdate (some now) := by
  refine ⟨((((d.setTask taskType isCompleted).cur.completedTasks.values.filter id).length : ℚ)
    / 4) * 100, ?_⟩
  unfold updateTaskCompletionDoc
  simp only
  split_ifs
  · exact Or.inr rfl
  · exact Or.inl rfl
  · exact Or.inl rfl

theorem CompletedTasks.get_set (c : CompletedTasks) (k k' : TaskType) (b : Bool) :
    (c.set k b).get k' = if k' = k then b else c.get k' := by
  cases k <;> cases k' <;> rfl

theorem CompletedTasks.ext_get {c₁ c₂ : CompletedTasks} (h : ∀ k, c₁.get k = c₂.get k) :
    c₁ = c₂ := by
  obtain ⟨g, p, t, j⟩ := c₁
  obtain ⟨g', p', t', j'⟩ := c₂
  have hg := h .gratitude
  have hp := h .pomodoro
  have ht := h .todo
  have hj := h .journal
  simp only [CompletedTasks.get] at hg hp ht hj
  subst hg hp ht hj
  rfl

theorem applyModified_task (d : UserDoc) (s : User) (k : TaskType) :
    (applyModified d s).completedTasks.get k =
      if d.modified.task k then d.cur.completedTasks.get k else s.completedTasks.get k := by
  cases k <;> rfl

theorem setTask_modified_task (u : User) (k k' : TaskType) (b : Bool) :
    (UserDoc.setTask { cur := u, modified := {} } k b).modified.task k' =
      (decide (k' = k) && (b != u.completedTasks.get k)) := by
  cases k <;> cases k' <;> simp [UserDoc.setTask, Modified.task, CompletedTasks.get]

/-- What the document of one call carries when it was loaded from the stored record `u`. -/
theorem updateTaskCompletionDoc_fresh (tz now : Int) (u : User) (k : TaskType) (b : Bool) :
    InSync (updateTaskCompletionDoc tz now { cur := u, modified := {} } k b).1 u ∧
    (updateTaskCompletionDoc tz now { cur := u, modified := {} } k b).1.cur.completedTasks =
      u.completedTasks.set k b ∧
    (∀ k', (updateTaskCompletionDoc tz now { cur := u, modified := {} } k b).1.modified.task k' =
      (decide (k' = k) && (b != u.completedTasks.get k))) ∧
    ((updateTaskCompletionDoc tz now { cur := u, modified := {} } k b).1.cur.streak = u.streak ∨
      (updateTaskCompletionDoc tz now { cur := u, modified := {} } k b).1.cur.streak =
        u.streak + 1) := by
  obtain ⟨v, hd | hd⟩ := updateTaskCompletionDoc_fst tz now { cur := u, modified := {} } k b
  · rw [hd]
    exact ⟨inSync_setLastActive (inSync_setProgress (inSync_setTask (inSync_fresh u) k b) v) now,
      rfl, fun k' => setTask_modified_task u k k' b, Or.inl rfl⟩
  · rw [hd]
    exact ⟨inSync_setLastStreakUpdate (inSync_setStreak (inSync_setLastActive
        (inSync_setProgress (inSync_setTask (inSync_fresh u) k b) v) now) _) _,
      rfl, fun k' => setTask_modified_task u k k' b, Or.inr rfl⟩

/-- The record stored after two overlapped calls. -/
theorem overlappedUpdates_stored (tz : Int) {db : Users} {userId : Nat} {u : User}
    (first second : Call) (h : stored db userId = some u) :
    stored (overlappedUpdates tz db userId first second).1 userId = some
      (applyModified
        (updateTaskCompletionDoc tz second.now { cur := u, modified := {} } second.taskType
          second.isCompleted).1
        (updateTaskCompletionDoc tz first.now { cur := u, modified := {} } first.taskType
          first.isCompleted).1.cur) := by
  obtain ⟨hsA, -, -, -⟩ := updateTaskCompletionDoc_fresh tz first.now u first.taskType
    first.isCompleted
  obtain ⟨hsB, -, -, -⟩ := updateTaskCompletionDoc_fresh tz second.now u second.taskType
    second.isCompleted
  unfold overlappedUpdates
  rw [findById_of_stored h]
  simp only
  rw [stored_save, stored_save_inSync h hsA]
  have hid : (updateTaskCompletionDoc tz first.now { cur := u, modified := {} } first.taskType
      first.isCompleted).1.cur._id =
      (updateTaskCompletionDoc tz second.now { cur := u, modified := {} } second.taskType
        second.isCompleted).1.cur._id := hsA.1.trans hsB.1.symm
  simp [hid]

theorem applyModified_streak (d : UserDoc) (s : User) :
    (applyModified d s).streak = if d.modified.streak then d.cur.streak else s.streak := rfl

/-! ## Zones that keep one offset -/

theorem setHours0_of_one_offset (z : Zone) (hz : z.before = z.after) (t : Int) :
    z.setHours0 t = setHours0 z.before t := by
  simp only [Zone.setHours0, Zone.ofLocal, Zone.toLocal, Zone.offset, setHours0, ← hz, or_self,
    ite_self]
  omega

theorem yesterday_of_one_offset (z : Zone) (hz : z.before = z.after) (today : Int) :
    z.yesterday today = setHours0 z.before (today - msPerDay) := by
  rw [Zone.yesterday, setHours0_of_one_offset z hz]
  simp only [Zone.ofLocal, Zone.toLocal, Zone.offset, ← hz, or_self, ite_self]
  congr 1
  omega

/-- On a server whose zone keeps one offset, `checkAndUpdateStreakIn` is
`checkAndUpdateStreak` at that offset. -/
theorem checkAndUpdateStreakIn_of_one_offset (z : Zone) (hz : z.before = z.after) (now : Int)
    (db : Users) (userId : Nat) :
    checkAndUpdateStreakIn z now db userId = checkAndUpdateStreak z.before now db userId := by
  simp only [checkAndUpdateStreakIn, checkAndUpdateStreak, setHours0_of_one_offset z hz,
    yesterday_of_one_offset z hz]

/-! ## Claims about producers and routes -/

/-- C21, as stated, fails: for a user whose pomodoro flag is false, `POST /api/pomodoro` with
type beginner and `completedCycles` 0 is accepted (201) and the pomodoro flag is true
afterwards. -/
theorem zero_cycles_sets_pomodoro_flag :
    (stored journalStore.users 1).map (fun u => u.completedTasks.pomodoro) = some false ∧
    (postPomodoro 0 93600000 journalStore 90 1 "beginner" (some 0) false).2.status = 201 ∧
    (stored (postPomodoro 0 93600000 journalStore 90 1 "beginner" (some 0) false).1.users 1).map
      (fun u => u.completedTasks.pomodoro) = some true := by
  have h : stored journalStore.users 1 = some onlyJournal := rfl
  obtain ⟨hr, u', hs, hf⟩ := createPomodoroSession_flag 0 93600000 90 .beginner 0 false h
  have hk : PomodoroType.ofString? "beginner" = some .beginner := by decide
  refine ⟨rfl, ?_, ?_⟩
  · simp [postPomodoro, hk, hr]
  · simp [postPomodoro, hk, hr, hs, hf]

/-- C21, amended: for every request accepted by `POST /api/pomodoro` (a type among the three,
a number `completedCycles` that is not negative) of an existing user, the answer is 201 with
the session as sent, `createPomodoroSession` records that session (it is appended to the
stored sessions) and marks the pomodoro task completed, whatever `completedCycles` and
`isBreak` are. -/
theorem postPomodoro_marks_every_session (tz now : Int) (s : Store) (newId userId : Nat)
    (u : User) (type : String) (kind : PomodoroType) (cycles : ℚ) (isBreak : Bool)
    (h : stored s.users userId = some u)
    (hk : PomodoroType.ofString? type = some kind) (hc : 0 ≤ cycles) :
    (postPomodoro tz now s newId userId type (some cycles) isBreak).2 =
        { status := 201
          body := .session
            { _id := newId, userId := userId, type := kind, completedCycles := cycles,
              isBreak := isBreak, date := now } } ∧
      (postPomodoro tz now s newId userId type (some cycles) isBreak).1.pomodoroSessions =
        s.pomodoroSessions ++
          [{ _id := newId, userId := userId, type := kind, completedCycles := cycles,
             isBreak := isBreak, date := now }] ∧
      ∃ u', stored (postPomodoro tz now s newId userId type (some cycles) isBreak).1.users
          userId = some u' ∧ u'.completedTasks.pomodoro = true := by
  obtain ⟨hr, u', hs, hf⟩ := createPomodoroSession_flag tz now newId kind cycles isBreak h
  have hnot : ¬ cycles < 0 := not_lt.mpr hc
  unfold postPomodoro
  simp only [hk, hnot, if_false, hr, true_and]
  exact ⟨createPomodoroSession_sessions tz now s newId userId kind cycles isBreak, u', hs, hf⟩

theorem postPomodoro_marks_every_session_witness :
    stored journalStore.users 1 = some onlyJournal ∧
    PomodoroType.ofString? "beginner" = some .beginner ∧
    (0 : ℚ) ≤ 0 ∧
    journalStore.pomodoroSessions = [] ∧
    ((postPomodoro 0 93600000 journalStore 90 1 "beginner" (some 0) false).2 =
        { status := 201
          body := .session
            { _id := 90, userId := 1, type := .beginner, completedCycles := 0,
              isBreak := false, date := 93600000 } } ∧
      (postPomodoro 0 93600000 journalStore 90 1 "beginner" (some 0) false).1.pomodoroSessions =
        journalStore.pomodoroSessions ++
          [{ _id := 90, userId := 1, type := .beginner, completedCycles := 0,
             isBreak := false, date := 93600000 }] ∧
      ∃ u', stored (postPomodoro 0 93600000 journalStore 90 1 "beginner" (some 0) false).1.users
          1 = some u' ∧ u'.completedTasks.pomodoro = true) :=
  ⟨rfl, by decide, le_refl 0, rfl,
    postPomodoro_marks_every_session 0 93600000 journalStore 90 1 onlyJournal "beginner"
      .beginner 0 false rfl (by decide) (le_refl 0)⟩

/-- C22, as stated, fails: after the entry written today is deleted, the only entry left
is dated Day 1, not today (Day 2), and the journal flag is still true. -/
theorem deleting_todays_entry_keeps_journal_flag :
    (deleteJournalEntry 0 93600000 journalStore 1 81).journalEntries =
      [{ _id := 80, userId := 1, title := "monday", content := "notes", date := 3600000 }] ∧
    setHours0 0 3600000 ≠ setHours0 0 93600000 ∧
    (stored (deleteJournalEntry 0 93600000 journalStore 1 81).users 1).map
      (fun u => u.completedTasks.journal) = some true := by
  refine ⟨by decide, by decide, ?_⟩
  rfl

/-- C22, amended: after `deleteJournalEntry` the journal flag of an existing user is false
when the user has no journal entry left at all, of any date; when an entry remains, also one
from an earlier day, the record is left as it was. -/
theorem deleteJournalEntry_flag (tz now : Int) (s : Store) (userId entryId : Nat) (u : User)
    (h : stored s.users userId = some u) :
    ∃ u', stored (deleteJournalEntry tz now s userId entryId).users userId = some u' ∧
      (((deleteJournalEntry tz now s userId entryId).journalEntries.filter
          (fun entry => entry.userId == userId) = [] → u'.completedTasks.journal = false) ∧
       ((deleteJournalEntry tz now s userId entryId).journalEntries.filter
          (fun entry => entry.userId == userId) ≠ [] → u' = u)) := by
  rw [deleteJournalEntry_entries]
  unfold deleteJournalEntry
  simp only
  by_cases hlen : ((findOneAndDeleteJournal entryId userId s.journalEntries).filter
      (fun entry => entry.userId == userId)).length = 0
  · have hnil := List.length_eq_zero.mp hlen
    simp only [hlen, if_true]
    exact ⟨_, updateTaskCompletion_stored tz now .journal false h, fun _ => rfl,
      fun hne => absurd hnil hne⟩
  · have hne : (findOneAndDeleteJournal entryId userId s.journalEntries).filter
        (fun entry => entry.userId == userId) ≠ [] := fun he => hlen (by rw [he]; rfl)
    simp only [hlen, if_false]
    exact ⟨u, h, fun hnil => absurd hnil hne, fun _ => rfl⟩

theorem deleteJournalEntry_flag_witness :
    stored journalStore.users 1 = some onlyJournal ∧
    ∃ u', stored (deleteJournalEntry 0 93600000 journalStore 1 81).users 1 = some u' ∧
      (((deleteJournalEntry 0 93600000 journalStore 1 81).journalEntries.filter
          (fun entry => entry.userId == 1) = [] → u'.completedTasks.journal = false) ∧
       ((deleteJournalEntry 0 93600000 journalStore 1 81).journalEntries.filter
          (fun entry => entry.userId == 1) ≠ [] → u' = onlyJournal)) :=
  ⟨rfl, deleteJournalEntry_flag 0 93600000 journalStore 1 81 onlyJournal rfl⟩

/-- C23: the code at the failing input. An authenticated `POST /api/progress/reset` matches
the route `'/api/progress/:taskType'`, registered first, with `taskType = 'reset'`: for every
store and user the answer is 400 "Invalid task type" and the store is unchanged; the reset
handler is not reached. -/
theorem reset_path_is_taken_by_taskType_route (tz now : Int) (db : Users) (userId : Nat)
    (completed : Bool) :
    dispatchPostProgress tz now db userId ["api", "progress", "reset"] completed =
      (db, { status := 400, body := .error "Invalid task type" }) := by
  rfl

/-! ## Claims about overlapping calls, elapsed days and the token check -/

/-- C24, as stated, fails: gratitude and todo reported at the same instant for `twoOfFour`,
both calls loading the record before either saves, leave all four flags true with streak 0
and no `lastStreakUpdate`, whereas either serial order leaves streak 1. -/
theorem overlapped_ticks_lose_the_award :
    (stored (overlappedUpdates 0 [twoOfFour] 1 tickGratitude tickTodo).1 1).map
      (fun u => (u.completedTasks, u.streak, u.lastStreakUpdate)) =
        some ({ gratitude := true, pomodoro := true, todo := true, journal := true }, 0, none) ∧
    (stored (runCalls 0 [twoOfFour] 1 [tickGratitude, tickTodo]).1 1).map
      (fun u => u.streak) = some 1 ∧
    (stored (runCalls 0 [twoOfFour] 1 [tickTodo, tickGratitude]).1 1).map
      (fun u => u.streak) = some 1 := by
  have h : stored [twoOfFour] 1 = some twoOfFour := rfl
  refine ⟨?_, ?_, ?_⟩
  · rw [overlappedUpdates_stored 0 tickGratitude tickTodo h]
    rfl
  · have h1 := updateTaskCompletion_stored 0 7200000 .gratitude true h
    have h2 := updateTaskCompletion_stored 0 7200000 .todo true h1
    simp only [runCalls, tickGratitude, tickTodo]
    rw [h2]
    rfl
  · have h1 := updateTaskCompletion_stored 0 7200000 .todo true h
    have h2 := updateTaskCompletion_stored 0 7200000 .gratitude true h1
    simp only [runCalls, tickGratitude, tickTodo]
    rw [h2]
    rfl

/-- C24, amended: two `updateTaskCompletion` calls for one existing user on different task
kinds that overlap (both load before either saves) lose neither flag, and the streak grows
by at most 1, so it is not incremented twice; progress and the award come from each call's
own view of the record, so the final record need not be that of a serial order. -/
theorem overlapped_updates_keep_both_flags (tz : Int) (db : Users) (userId : Nat) (u : User)
    (first second : Call) (h : stored db userId = some u)
    (hkinds : first.taskType ≠ second.taskType) :
    ∃ u', stored (overlappedUpdates tz db userId first second).1 userId = some u' ∧
      u'.completedTasks =
        (u.completedTasks.set first.taskType first.isCompleted).set
          second.taskType second.isCompleted ∧
      u.streak ≤ u'.streak ∧ u'.streak ≤ u.streak + 1 := by
  obtain ⟨-, hcA, -, hstA⟩ := updateTaskCompletionDoc_fresh tz first.now u first.taskType
    first.isCompleted
  obtain ⟨-, hcB, hmB, hstB⟩ := updateTaskCompletionDoc_fresh tz second.now u second.taskType
    second.isCompleted
  refine ⟨_, overlappedUpdates_stored tz first second h, ?_, ?_, ?_⟩
  · apply CompletedTasks.ext_get
    intro k
    rw [applyModified_task, hmB k, hcA, hcB]
    simp only [CompletedTasks.get_set]
    by_cases hk2 : k = second.taskType
    · subst hk2
      have hne : ¬ second.taskType = first.taskType := fun he => hkinds he.symm
      by_cases hb : second.isCompleted = u.completedTasks.get second.taskType
      · simp [hne, hb]
      · simp [hne, hb]
    · simp [hk2]
  · rw [applyModified_streak]
    split_ifs <;> omega
  · rw [applyModified_streak]
    split_ifs <;> omega

theorem overlapped_updates_keep_both_flags_witness :
    stored [twoOfFour] 1 = some twoOfFour ∧
    tickGratitude.taskType ≠ tickTodo.taskType ∧
    ∃ u', stored (overlappedUpdates 0 [twoOfFour] 1 tickGratitude tickTodo).1 1 = some u' ∧
      u'.completedTasks =
        (twoOfFour.completedTasks.set tickGratitude.taskType tickGratitude.isCompleted).set
          tickTodo.taskType tickTodo.isCompleted ∧
      twoOfFour.streak ≤ u'.streak ∧ u'.streak ≤ twoOfFour.streak + 1 :=
  ⟨rfl, by decide,
    overlapped_updates_keep_both_flags 0 [twoOfFour] 1 twoOfFour tickGratitude tickTodo rfl
      (by decide)⟩

/-- C25, as stated, fails: with `lastActive` at 23:00 of Day 1 and now at 01:00 of Day 2,
`daysSinceLastActive` is 0 while one calendar day separates the two. -/
theorem elapsed_days_not_calendar_days :
    (82800000 : Int) ≤ 90000000 ∧
    daysSinceLastActive 90000000 82800000 = 0 ∧
    calendarDaysBetween 0 82800000 90000000 = 1 := by
  decide

/-- C25, amended: `daysSinceLastActive` counts whole 24-hour periods between `lastActive`
and now; it is the number of calendar days separating the two days or one less, and equals
that number exactly when the time of day of now is not earlier than that of `lastActive`. -/
theorem daysSinceLastActive_bounds (tz now lastActive : Int) :
    calendarDaysBetween tz lastActive now - 1 ≤ daysSinceLastActive now lastActive ∧
    daysSinceLastActive now lastActive ≤ calendarDaysBetween tz lastActive now ∧
    (daysSinceLastActive now lastActive = calendarDaysBetween tz lastActive now ↔
      (lastActive + tz) % msPerDay ≤ (now + tz) % msPerDay) := by
  simp only [daysSinceLastActive, calendarDaysBetween, setHours0, msPerDay]
  norm_num
  omega

/-- At a fixed offset, where every local day has 24 hours: on a new day, for a record with
`lastStreakUpdate <= lastActive <= now`, more than one elapsed day puts `lastStreakUpdate`
before yesterday, and `checkAndUpdateStreak` resets the streak exactly when `lastStreakUpdate`
is null or not on the day before today. -/
theorem elapsed_days_test_fixed_offset (tz now : Int) (db : Users) (userId : Nat) (u : User)
    (h : stored db userId = some u)
    (hnew : setHours0 tz u.lastActive < setHours0 tz now)
    (hactive : u.lastActive ≤ now)
    (hlsu : ∀ t, u.lastStreakUpdate = some t → t ≤ u.lastActive) :
    (1 < daysSinceLastActive now u.lastActive →
      ∀ t, u.lastStreakUpdate = some t → setHours0 tz t ≠ setHours0 tz now - msPerDay) ∧
    ∃ u', stored (checkAndUpdateStreak tz now db userId).1 userId = some u' ∧
      ((u.lastStreakUpdate = none ∨
          ∃ t, u.lastStreakUpdate = some t ∧ setHours0 tz t ≠ setHours0 tz now - msPerDay) →
        u'.streak = 0 ∧ u'.lastStreakUpdate = none) ∧
      (¬ (u.lastStreakUpdate = none ∨
          ∃ t, u.lastStreakUpdate = some t ∧ setHours0 tz t ≠ setHours0 tz now - msPerDay) →
        u'.streak = u.streak ∧ u'.lastStreakUpdate = u.lastStreakUpdate) := by
  have hfirst : 1 < daysSinceLastActive now u.lastActive →
      ∀ t, u.lastStreakUpdate = some t → setHours0 tz t ≠ setHours0 tz now - msPerDay := by
    intro hd t ht
    have hle := hlsu t ht
    simp only [daysSinceLastActive, setHours0, msPerDay] at *
    norm_num at *
    omega
  refine ⟨hfirst, ?_⟩
  by_cases hreset : u.lastStreakUpdate = none ∨
      ∃ t, u.lastStreakUpdate = some t ∧ setHours0 tz t ≠ setHours0 tz now - msPerDay
  · have hbreak : 1 < (now - u.lastActive) / msPerDay ∨
        ∀ t, u.lastStreakUpdate = some t → setHours0 tz t ≠ setHours0 tz now - msPerDay := by
      right
      intro t ht
      rcases hreset with hn | ⟨t', ht', hne⟩
      · rw [hn] at ht; cases ht
      · rw [ht'] at ht; cases ht; exact hne
    obtain ⟨-, hs⟩ := checkAndUpdateStreak_broken tz now h hnew hbreak
    exact ⟨_, hs, fun _ => ⟨rfl, rfl⟩, fun hn => absurd hreset hn⟩
  · cases hl : u.lastStreakUpdate with
    | none => exact absurd (Or.inl hl) hreset
    | some t =>
      have hy : setHours0 tz t = setHours0 tz now - msPerDay := by
        by_contra hne
        exact hreset (Or.inr ⟨t, hl, hne⟩)
      have hdays : (now - u.lastActive) / msPerDay ≤ 1 := by
        by_contra hgt
        exact hfirst (not_le.mp hgt) t hl hy
      obtain ⟨-, hs⟩ := checkAndUpdateStreak_kept tz now h hnew hdays hl hy
      refine ⟨_, hs, fun hr => ?_, fun _ => ⟨rfl, hl.symm ▸ rfl⟩⟩
      rw [hl] at hreset
      exact absurd hr hreset

/-- C26, as stated, fails on a local day of 25 hours. The server's clock is set back one hour
at 03:00 of Day 2. A record awarded at 00:10 of Day 2, its last activity, is checked at 23:50
of Day 3: `lastStreakUpdate <= lastActive <= now`, it is a new day, 48 hours and 40 minutes
have passed, so `daysSinceLastActive` is 2, and yet the day of `lastStreakUpdate` is
yesterday. The streak is reset by the elapsed-days test alone. -/
theorem long_day_reset_by_elapsed_days :
    awardedOnLongDay.lastStreakUpdate = some 79800000 ∧
    (79800000 : Int) ≤ awardedOnLongDay.lastActive ∧
    awardedOnLongDay.lastActive ≤ 255000000 ∧
    fallBackZone.setHours0 awardedOnLongDay.lastActive < fallBackZone.setHours0 255000000 ∧
    1 < daysSinceLastActive 255000000 awardedOnLongDay.lastActive ∧
    fallBackZone.setHours0 79800000 = fallBackZone.yesterday (fallBackZone.setHours0 255000000) ∧
    (stored [awardedOnLongDay] 1).map (fun u => (u.streak, u.lastStreakUpdate)) =
      some (1, some 79800000) ∧
    (stored (checkAndUpdateStreakIn fallBackZone 255000000 [awardedOnLongDay] 1).1 1).map
      (fun u => (u.streak, u.lastStreakUpdate)) = some (0, none) := by
  refine ⟨rfl, by decide, by decide, by decide, by decide, by decide, rfl, ?_⟩
  rfl

/-- C26, amended: on a server whose zone keeps one UTC offset, so that every local day has
24 hours, in `checkAndUpdateStreak` on a new day, for a record with
`lastStreakUpdate <= lastActive <= now`, `daysSinceLastActive > 1` implies that the day of
`lastStreakUpdate` is not yesterday; so the streak is reset exactly when `lastStreakUpdate`
is null or not on the day before today, and is kept otherwise: there the elapsed-days test
never changes the outcome. -/
theorem elapsed_days_test_redundant_one_offset (z : Zone) (now : Int) (db : Users)
    (userId : Nat) (u : User)
    (hz : z.before = z.after)
    (h : stored db userId = some u)
    (hnew : z.setHours0 u.lastActive < z.setHours0 now)
    (hactive : u.lastActive ≤ now)
    (hlsu : ∀ t, u.lastStreakUpdate = some t → t ≤ u.lastActive) :
    (1 < daysSinceLastActive now u.lastActive →
      ∀ t, u.lastStreakUpdate = some t → z.setHours0 t ≠ z.yesterday (z.setHours0 now)) ∧
    ∃ u', stored (checkAndUpdateStreakIn z now db userId).1 userId = some u' ∧
      ((u.lastStreakUpdate = none ∨
          ∃ t, u.lastStreakUpdate = some t ∧ z.setHours0 t ≠ z.yesterday (z.setHours0 now)) →
        u'.streak = 0 ∧ u'.lastStreakUpdate = none) ∧
      (¬ (u.lastStreakUpdate = none ∨
          ∃ t, u.lastStreakUpdate = some t ∧ z.setHours0 t ≠ z.yesterday (z.setHours0 now)) →
        u'.streak = u.streak ∧ u'.lastStreakUpdate = u.lastStreakUpdate) := by
  simp only [setHours0_of_one_offset z hz, yesterday_of_one_offset z hz,
    checkAndUpdateStreakIn_of_one_offset z hz, setHours0_yesterday] at hnew ⊢
  exact elapsed_days_test_fixed_offset z.before now db userId u h hnew hactive hlsu

theorem elapsed_days_test_redundant_one_offset_witness :
    (Zone.fixed 0).before = (Zone.fixed 0).after ∧
    stored [awardedDay1] 1 = some awardedDay1 ∧
    (Zone.fixed 0).setHours0 awardedDay1.lastActive < (Zone.fixed 0).setHours0 262800000 ∧
    awardedDay1.lastActive ≤ 262800000 ∧
    (∀ t, awardedDay1.lastStreakUpdate = some t → t ≤ awardedDay1.lastActive) ∧
    1 < daysSinceLastActive 262800000 awardedDay1.lastActive ∧
    (∀ t, awardedDay1.lastStreakUpdate = some t →
      (Zone.fixed 0).setHours0 t ≠ (Zone.fixed 0).yesterday ((Zone.fixed 0).setHours0 262800000)) ∧
    awardedDay1.streak = 1 ∧
    ∃ u', stored (checkAndUpdateStreakIn (Zone.fixed 0) 262800000 [awardedDay1] 1).1 1 =
        some u' ∧ u'.streak = 0 ∧ u'.lastStreakUpdate = none :=
  have hlsu : ∀ t, awardedDay1.lastStreakUpdate = some t → t ≤ awardedDay1.lastActive := by
    intro t ht
    have : t = 3600000 := by simpa [awardedDay1] using ht.symm
    subst this
    decide
  have hdays : 1 < daysSinceLastActive 262800000 awardedDay1.lastActive := by decide
  have hmain :=
    elapsed_days_test_redundant_one_offset (Zone.fixed 0) 262800000 [awardedDay1] 1 awardedDay1
      rfl rfl (by decide) (by decide) hlsu
  ⟨rfl, rfl, by decide, by decide, hlsu, hdays, hmain.1 hdays, rfl,
    hmain.2.imp (fun _ hu =>
      ⟨hu.1, hu.2.1 (Or.inr ⟨3600000, rfl, hmain.1 hdays 3600000 rfl⟩)⟩)⟩

/-- C27: the code at the failing input. For `GET /api/auth/user`, whose URL starts with
`/api/auth/`, `verifyToken` calls `next()` without reading the Authorization header: with
no header, or with any token, the handler runs with no `req.userId` and answers 404 "User
not found" instead of the middleware answering 401. -/
theorem auth_user_route_skips_verification (jwtVerify : String → Option Nat) (db : Users)
    (authorization : Option String) :
    verifyToken jwtVerify { originalUrl := "/api/auth/user", authorization := authorization } =
      .ok none ∧
    getAuthUser jwtVerify db
        { originalUrl := "/api/auth/user", authorization := authorization } =
      { status := 404, body := .error "User not found" } := by
  refine ⟨rfl, rfl⟩

/-! ## Claims about the frontend -/

/-- C28: the code at the failing input. Starting from a context in which the server has
confirmed all four tasks and streak 1, the optimistic update for todo off and on again
(no server answer in between) raises the local streak to 2 in the state, in `todayProgress`
and in the cached `progress_data`; a second off and on raises it to 3. -/
theorem optimistic_toggle_raises_streak_each_time :
    (optimisticUpdate (optimisticUpdate allDoneLocally .todo false) .todo true).streak = 2 ∧
    (optimisticUpdate (optimisticUpdate allDoneLocally .todo false) .todo true).todayProgress.streak
      = some 2 ∧
    ((optimisticUpdate (optimisticUpdate allDoneLocally .todo false) .todo true).progressData.bind
      (fun data => data.streak)) = some 2 ∧
    (optimisticUpdate (optimisticUpdate
      (optimisticUpdate (optimisticUpdate allDoneLocally .todo false) .todo true)
      .todo false) .todo true).streak = 3 := by
  decide

/-- C29: the code at the failing input. With three tasks done, streak 2 and no stored
`last_completed_date`, the fallback for todo set true completes all four tasks but leaves the
streak at 2: it writes `last_completed_date` before it reads it back, so the completion
always counts as already made today. For every context the fallback leaves the streak
unchanged. -/
theorem fallback_never_increments :
    threeDoneLocally.storedLastCompletedDate = none ∧
    (fallbackUpdate 0 7200000 threeDoneLocally .todo true).allTasksCompleted = true ∧
    (fallbackUpdate 0 7200000 threeDoneLocally .todo true).streak = 2 ∧
    (fallbackUpdate 0 7200000 threeDoneLocally .todo true).todayProgress.streak = some 2 ∧
    (∀ (tz now : Int) (ctx : ProgressContext) (taskKey : TaskType) (completed : Bool),
      (fallbackUpdate tz now ctx taskKey completed).streak = ctx.streak) := by
  refine ⟨rfl, by decide, by decide, by decide, ?_⟩
  intro tz now ctx taskKey completed
  unfold fallbackUpdate
  simp [isToday]
  split_ifs <;> rfl

/-- C30: the code at the failing input. With user `u1` logged in, `startForcedBreak` at
instant 1000000 followed by `completeBreak` leaves the general key `pomodoro_forced_break`
in localStorage (only `pomodoro_forced_break_u1` is removed), and `BreakRedirect` still
redirects from the home page after the break has expired. -/
theorem completeBreak_leaves_general_key :
    getItem
        (completeBreak (some "u1")
          (startForcedBreak (some "u1") "Beginner" 1 1000000 "Beginner" emptyBrowser)).localStorage
        "pomodoro_forced_break" =
      some (.breakData "Beginner" 1300000 1000000 1 (some "u1") 87400000) ∧
    getItem
        (completeBreak (some "u1")
          (startForcedBreak (some "u1") "Beginner" 1 1000000 "Beginner" emptyBrowser)).localStorage
        "pomodoro_forced_break_u1" = none ∧
    breakRedirect "/" 1300001
      (completeBreak (some "u1")
        (startForcedBreak (some "u1") "Beginner" 1 1000000 "Beginner" emptyBrowser)) = true := by
  decide

end Productivity
